import Mathlib

/-!
Verification development for the aes-chat server (`server.js`, persistent
variant: the Socket.io event handlers, the `Room`/`Message` classes and the
`loadRooms` persistence logic).

The server state machine is embedded shallowly: JavaScript `Map`s and plain
objects keyed by strings become association lists with JS insertion-order
semantics (`mapSet` replaces in place, otherwise appends; `mapDelete`
removes), timestamps become `Nat` (milliseconds), and `setTimeout`-scheduled
disappearance callbacks become explicit entries in a `timers` component that
a separate `fireTimer` operation consumes.  Handlers that would throw a
`TypeError` on an impossible state (e.g. `currentRoom` set but the room id
absent from the `rooms` map, which cannot happen because the persistent
variant never deletes rooms, or `currentUser` null while `currentRoom` is
set, which cannot happen because `join-room` assigns both together) are
modelled as silent no-ops.  The module-level `users` map is write-only in
the source (it is set and deleted but never read) and is omitted.
-/

namespace AESChat

/-- JS-object / JS-Map lookup on an association list (first entry wins). -/
def aget {α : Type} (m : List (String × α)) (k : String) : Option α :=
  (m.find? (fun p => p.1 == k)).map (fun p => p.2)

/-- JS-Map `set` / object property assignment: replace in place when the key
is present, append a new entry otherwise (insertion-order semantics). -/
def mapSet {α : Type} (m : List (String × α)) (k : String) (v : α) :
    List (String × α) :=
  if (aget m k).isSome then
    m.map (fun p => if p.1 == k then (k, v) else p)
  else m ++ [(k, v)]

/-- JS-Map `delete` / the `delete` operator on an object property. -/
def mapDelete {α : Type} (m : List (String × α)) (k : String) :
    List (String × α) :=
  m.filter (fun p => !(p.1 == k))

/-- Last `n` elements of a list, the model of `Array.prototype.slice(-n)`. -/
def lastN {α : Type} (n : Nat) (l : List α) : List α :=
  l.drop (l.length - n)

/-- Signed 32-bit wrap-around, the coercion JS applies to `<<` operands. -/
def toInt32 (x : Int) : Int :=
  (x + 2 ^ 31) % 2 ^ 32 - 2 ^ 31

/-- One iteration of the hash loop in `generateUserColor`:
`hash = name.charCodeAt(i) + ((hash << 5) - hash)`.  The shift coerces to
int32 and wraps; the subtraction and addition are exact. -/
def hashStep (h : Int) (c : Char) : Int :=
  (c.toNat : Int) + (toInt32 (h * 32) - h)

/-- The fifteen hard-coded colors in `generateUserColor`. -/
def colorsList : List String :=
  ["#FF6B6B", "#4ECDC4", "#45B7D1", "#96CEB4", "#FFEAA7",
   "#DDA0DD", "#98D8C8", "#F7DC6F", "#BB8FCE", "#85C1E9",
   "#F8B500", "#00CED1", "#FF69B4", "#32CD32", "#FFD700"]

/-- `generateUserColor(name)`: hash the name and index the color table with
`Math.abs(hash) % colors.length`. -/
def generateUserColor (name : String) : String :=
  let h := name.toList.foldl hashStep 0
  colorsList.getD (h.natAbs % colorsList.length) ""

/-- The canonical content installed by the `delete-message` handler. -/
def deletedContent : String := "This message was deleted"

/-- The canonical content installed by the disappearance timer callback. -/
def disappearedContent : String := "This message has disappeared"

/-- The `fileData` descriptor attached to voice messages
(`{ audioData, duration, waveform }`); other kinds carry it opaquely. -/
structure FileData where
  audioData : String
  duration : Nat
  waveform : String
deriving Repr, DecidableEq

/-- `room.settings` as initialized in the `Room` constructor and patched by
`update-settings`. -/
structure Settings where
  disappearingMessages : Option Nat
  maxMembers : Nat
  isPrivate : Bool
  allowFileSharing : Bool
  allowVoiceMessages : Bool
deriving Repr, DecidableEq

/-- The settings object a fresh `Room` starts with. -/
def defaultSettings : Settings :=
  { disappearingMessages := none, maxMembers := 100, isPrivate := true,
    allowFileSharing := true, allowVoiceMessages := true }

/-- A patch sent with `update-settings`; the handler merges it with object
spread, so a field is overridden exactly when the key is present. -/
structure SettingsPatch where
  disappearingMessages : Option (Option Nat)
  maxMembers : Option Nat
  isPrivate : Option Bool
  allowFileSharing : Option Bool
  allowVoiceMessages : Option Bool
deriving Repr, DecidableEq

/-- `{...room.settings, ...settings}` in the `update-settings` handler. -/
def mergeSettings (s : Settings) (p : SettingsPatch) : Settings :=
  { disappearingMessages := p.disappearingMessages.getD s.disappearingMessages,
    maxMembers := p.maxMembers.getD s.maxMembers,
    isPrivate := p.isPrivate.getD s.isPrivate,
    allowFileSharing := p.allowFileSharing.getD s.allowFileSharing,
    allowVoiceMessages := p.allowVoiceMessages.getD s.allowVoiceMessages }

/-- The truthiness test `room.settings.disappearingMessages ? ... : ...`
applied by the `send-message` handler (`null` and `0` are falsy). -/
def disappearTruthy : Option Nat → Bool
  | none => false
  | some d => d != 0

/-- The `currentUser` object built in the `join-room` handler. -/
structure UserObj where
  id : String
  name : String
  avatar : String
  color : String
deriving Repr, DecidableEq

/-- The value stored by `Room.addMember`: the user object spread together
with `joinedAt` and `isOnline`; `presence-update` later adds `status`. -/
structure MemberData where
  id : String
  name : String
  avatar : String
  color : String
  joinedAt : Nat
  isOnline : Bool
  status : Option String
deriving Repr, DecidableEq

/-- The `Message` class fields. -/
structure Message where
  id : String
  roomId : String
  senderId : String
  senderName : String
  senderAvatar : String
  content : String
  type : String
  timestamp : Nat
  replyTo : Option String
  reactions : List (String × List String)
  readBy : List String
  edited : Bool
  editedAt : Option Nat
  deleted : Bool
  disappearAt : Option Nat
  fileData : Option FileData
deriving Repr, DecidableEq

/-- The argument object handed to the `Message` constructor. -/
structure MessageData where
  roomId : String
  senderId : String
  senderName : String
  senderAvatar : String
  content : String
  type : Option String
  replyTo : Option String
  disappearAt : Option Nat
  fileData : Option FileData
deriving Repr, DecidableEq

/-- The `Message` constructor.  `uuidv4()` is supplied as `newId` and
`new Date()` as `now`; `data.type || 'text'` and `data.replyTo || null`
apply JS truthiness (the empty string is falsy), and a `Date` stored in
`data.disappearAt` is always truthy, so the option passes through. -/
def mkMessage (newId : String) (now : Nat) (data : MessageData) : Message :=
  { id := newId
    roomId := data.roomId
    senderId := data.senderId
    senderName := data.senderName
    senderAvatar := data.senderAvatar
    content := data.content
    type := match data.type with
            | none => "text"
            | some t => if t == "" then "text" else t
    timestamp := now
    replyTo := match data.replyTo with
               | none => none
               | some r => if r == "" then none else some r
    reactions := []
    readBy := [data.senderId]
    edited := false
    editedAt := none
    deleted := false
    disappearAt := data.disappearAt
    fileData := data.fileData }

/-- The `Room` class fields (the ephemeral per-connection socket state lives
in `ConnState`, not here). -/
structure Room where
  id : String
  name : String
  createdAt : Nat
  createdBy : String
  members : List (String × MemberData)
  messages : List Message
  settings : Settings
deriving Repr, DecidableEq

/-- The `Room` constructor: `name || Room id.substring(0,6)` with JS
truthiness, empty members map, empty log, default settings. -/
def newRoom (id : String) (name : Option String) (createdBy : String)
    (now : Nat) : Room :=
  { id := id
    name := match name with
            | none => "Room " ++ (id.take 6)
            | some n => if n == "" then "Room " ++ (id.take 6) else n
    createdAt := now
    createdBy := createdBy
    members := []
    messages := []
    settings := defaultSettings }

/-- The per-connection closure variables `currentRoom` and `currentUser`. -/
structure ConnState where
  currentRoom : Option String
  currentUser : Option UserObj
deriving Repr, DecidableEq

/-- Outbound event payloads (only the fields the source sends). -/
inductive Payload where
  | roomJoined (roomId roomName : String) (members : List (String × MemberData))
      (messages : List Message) (settings : Settings)
  | userJoined (user : UserObj) (members : List (String × MemberData))
  | message (m : Message)
  | messageDeleted (messageId : String)
  | messageEdited (messageId newContent : String) (editedAt : Nat)
  | reactionUpdated (messageId : String) (reactions : List (String × List String))
  | messageRead (messageId userId userName : String)
  | settingsUpdated (s : Settings)
  | userLeftDisc (user : UserObj) (members : List (String × MemberData))
  | userLeftKick (userId : String) (members : List (String × MemberData))
  | kicked (roomName : String)
  | userTyping (userId userName : String)
  | userStoppedTyping (userId : String)
  | presenceChanged (userId status : String)
  | userJoinedVoice (userId : String)
  | userLeftVoice (userId : String)
  | canvasStroke (data : String)
  | handshakeRequest (senderId pk : String)
  | handshakeComplete (ciphertext encryptedKey : String)
  | voiceSignal (senderId signal : String)
deriving Repr, DecidableEq

/-- An outbound emission: `io.to(room)` is `toRoom`, `socket.to(room)` is
`toOthers` (room minus the sender), and both `socket.emit` and
`io.to(socketId)` are `toSocket`. -/
inductive Emit where
  | toRoom (roomId : String) (p : Payload)
  | toOthers (roomId senderSid : String) (p : Payload)
  | toSocket (sid : String) (p : Payload)
deriving Repr, DecidableEq

/-- The server state: the `rooms` map, the per-connection closure states,
the Socket.io channel membership, the pending disappearance timers
`(roomId, messageId, delayMs)`, and the set of connected socket ids. -/
structure ServerState where
  rooms : List (String × Room)
  conns : List (String × ConnState)
  channels : List (String × List String)
  timers : List (String × String × Nat)
  connected : List String
deriving Repr, DecidableEq

/-- The state of a freshly started server before any connection or load. -/
def initialState : ServerState :=
  { rooms := [], conns := [], channels := [], timers := [], connected := [] }

/-- `socket.join(roomId)` (idempotent). -/
def channelJoin (chs : List (String × List String)) (rid sid : String) :
    List (String × List String) :=
  let cur := (aget chs rid).getD []
  if sid ∈ cur then chs else mapSet chs rid (cur ++ [sid])

/-- `socket.leave(roomId)`. -/
def channelLeave (chs : List (String × List String)) (rid sid : String) :
    List (String × List String) :=
  mapSet chs rid (((aget chs rid).getD []).erase sid)

/-- Remove the first list element satisfying `p`. -/
def removeFirstP {α : Type} (p : α → Bool) : List α → List α
  | [] => []
  | x :: xs => if p x then xs else x :: removeFirstP p xs

/-- Consume the pending timer for `(rid, mid)` once it fires. -/
def removeTimer (ts : List (String × String × Nat)) (rid mid : String) :
    List (String × String × Nat) :=
  removeFirstP (fun t => t.1 == rid && t.2.1 == mid) ts

/-- Mutate in place the first message whose `id` matches, the model of
`room.messages.find(...)` / `findIndex` followed by field assignment. -/
def updateFirstMsg (msgs : List Message) (mid : String)
    (f : Message → Message) : List Message :=
  match msgs with
  | [] => []
  | m :: rest =>
    if m.id == mid then f m :: rest else m :: updateFirstMsg rest mid f

/-- The body of the `add-reaction` handler once the message is found:
create the bucket if absent, then toggle the session id; an emptied bucket's
key is deleted, a new reactor is pushed at the end. -/
def toggleReaction (msg : Message) (sid emoji : String) : Message :=
  let reactions0 :=
    if (aget msg.reactions emoji).isSome then msg.reactions
    else mapSet msg.reactions emoji []
  let lst := (aget reactions0 emoji).getD []
  let reactions1 :=
    if sid ∈ lst then
      let lst1 := lst.erase sid
      if lst1 == [] then mapDelete reactions0 emoji
      else mapSet reactions0 emoji lst1
    else mapSet reactions0 emoji (lst ++ [sid])
  { msg with reactions := reactions1 }

/-- Guard pattern shared by the member-scoped handlers: resolve the
connection's closure state, its `currentRoom`, and the room object; any
failure is a silent drop. -/
def withRoom (s : ServerState) (sid : String)
    (f : ConnState → String → Room → ServerState × List Emit) :
    ServerState × List Emit :=
  match aget s.conns sid with
  | none => (s, [])
  | some conn =>
    match conn.currentRoom with
    | none => (s, [])
    | some rid =>
      match aget s.rooms rid with
      | none => (s, [])
      | some room => f conn rid room

/-- `io.on('connection', ...)`: fresh closure state, socket registered. -/
def connectH (s : ServerState) (sid : String) : ServerState × List Emit :=
  ({ s with conns := mapSet s.conns sid { currentRoom := none, currentUser := none },
            connected := if sid ∈ s.connected then s.connected
                         else s.connected ++ [sid] }, [])

/-- The `join-room` handler.  The client payload also carries a persistent
`userId`, but the handler destructures only `{ roomId, userName,
userAvatar }`, so the persistent id never reaches the server state. -/
def joinRoomH (s : ServerState) (sid roomId userName userAvatar : String)
    (now : Nat) : ServerState × List Emit :=
  match aget s.conns sid with
  | none => (s, [])
  | some _ =>
    let rooms1 :=
      if (aget s.rooms roomId).isSome then s.rooms
      else mapSet s.rooms roomId (newRoom roomId none userName now)
    match aget rooms1 roomId with
    | none => (s, [])
    | some room =>
      let user : UserObj :=
        { id := sid, name := userName, avatar := userAvatar,
          color := generateUserColor userName }
      let member : MemberData :=
        { id := sid, name := userName, avatar := userAvatar,
          color := user.color, joinedAt := now, isOnline := true,
          status := none }
      let room1 := { room with members := mapSet room.members sid member }
      ({ s with rooms := mapSet rooms1 roomId room1,
                conns := mapSet s.conns sid
                  { currentRoom := some roomId, currentUser := some user },
                channels := channelJoin s.channels roomId sid },
       [Emit.toSocket sid (Payload.roomJoined roomId room1.name room1.members
          (lastN 5000 room1.messages) room1.settings),
        Emit.toOthers roomId sid (Payload.userJoined user room1.members)])

/-- The `send-message` handler.  Note that membership of the sender in the
room is not consulted: only `currentRoom` and the room's existence. -/
def sendMessageH (s : ServerState) (sid content : String) (ty : Option String)
    (replyTo : Option String) (fileData : Option FileData) (newId : String)
    (now : Nat) : ServerState × List Emit :=
  withRoom s sid (fun conn rid room =>
    match conn.currentUser with
    | none => (s, [])
    | some u =>
      let dis : Option Nat :=
        if disappearTruthy room.settings.disappearingMessages then
          some (now + room.settings.disappearingMessages.getD 0)
        else none
      let msg := mkMessage newId now
        { roomId := rid, senderId := sid, senderName := u.name,
          senderAvatar := u.avatar, content := content,
          type := match ty with
                  | none => some "text"
                  | some t => if t == "" then some "text" else some t
          replyTo := replyTo, disappearAt := dis, fileData := fileData }
      ({ s with rooms := mapSet s.rooms rid
                  { room with messages := room.messages ++ [msg] },
                timers :=
                  if msg.disappearAt.isSome then
                    s.timers ++ [(rid, msg.id,
                      room.settings.disappearingMessages.getD 0)]
                  else s.timers },
       [Emit.toRoom rid (Payload.message msg)]))

/-- The `voice-message` handler: fixed content and type, a voice `fileData`
descriptor, and no `disappearAt` (the constructor receives none) and no
disappearance timer. -/
def voiceMessageH (s : ServerState) (sid : String) (audioData : String)
    (duration : Nat) (waveform : String) (newId : String) (now : Nat) :
    ServerState × List Emit :=
  withRoom s sid (fun conn rid room =>
    match conn.currentUser with
    | none => (s, [])
    | some u =>
      let msg := mkMessage newId now
        { roomId := rid, senderId := sid, senderName := u.name,
          senderAvatar := u.avatar, content := "Voice message",
          type := some "voice", replyTo := none, disappearAt := none,
          fileData := some { audioData := audioData, duration := duration,
                             waveform := waveform } }
      ({ s with rooms := mapSet s.rooms rid
                  { room with messages := room.messages ++ [msg] } },
       [Emit.toRoom rid (Payload.message msg)]))

/-- The `add-reaction` handler. -/
def addReactionH (s : ServerState) (sid messageId emoji : String) :
    ServerState × List Emit :=
  withRoom s sid (fun _conn rid room =>
    match room.messages.find? (fun m => m.id == messageId) with
    | none => (s, [])
    | some msg =>
      let msg1 := toggleReaction msg sid emoji
      let msgs1 := updateFirstMsg room.messages messageId
        (fun m => toggleReaction m sid emoji)
      ({ s with rooms := mapSet s.rooms rid { room with messages := msgs1 } },
       [Emit.toRoom rid (Payload.reactionUpdated messageId msg1.reactions)]))

/-- The `forEach` loop of the `mark-read` handler, threaded over the
message list and the accumulated emissions. -/
def markReadFold (sid userName rid : String) (msgs : List Message)
    (emits : List Emit) : List String → List Message × List Emit
  | [] => (msgs, emits)
  | mid :: rest =>
    match msgs.find? (fun m => m.id == mid) with
    | none => markReadFold sid userName rid msgs emits rest
    | some m =>
      if sid ∈ m.readBy then markReadFold sid userName rid msgs emits rest
      else
        markReadFold sid userName rid
          (updateFirstMsg msgs mid
            (fun mm => { mm with readBy := mm.readBy ++ [sid] }))
          (emits ++ [Emit.toOthers rid sid
            (Payload.messageRead mid sid userName)]) rest

/-- The `mark-read` handler. -/
def markReadH (s : ServerState) (sid : String) (messageIds : List String) :
    ServerState × List Emit :=
  withRoom s sid (fun conn rid room =>
    match conn.currentUser with
    | none => (s, [])
    | some u =>
      let res := markReadFold sid u.name rid room.messages [] messageIds
      ({ s with rooms := mapSet s.rooms rid
                  { room with messages := res.1 } }, res.2))

/-- The `edit-message` handler: the only tests are that the message exists
and that `message.senderId === socket.id`; the `deleted` flag is not
consulted. -/
def editMessageH (s : ServerState) (sid messageId newContent : String)
    (now : Nat) : ServerState × List Emit :=
  withRoom s sid (fun _conn rid room =>
    match room.messages.find? (fun m => m.id == messageId) with
    | none => (s, [])
    | some msg =>
      if msg.senderId == sid then
        let msgs1 := updateFirstMsg room.messages messageId
          (fun m => { m with content := newContent, edited := true,
                             editedAt := some now })
        ({ s with rooms := mapSet s.rooms rid { room with messages := msgs1 } },
         [Emit.toRoom rid (Payload.messageEdited messageId newContent now)])
      else (s, []))

/-- The `delete-message` handler. -/
def deleteMessageH (s : ServerState) (sid messageId : String) :
    ServerState × List Emit :=
  withRoom s sid (fun _conn rid room =>
    match room.messages.find? (fun m => m.id == messageId) with
    | none => (s, [])
    | some msg =>
      if msg.senderId == sid then
        let msgs1 := updateFirstMsg room.messages messageId
          (fun m => { m with deleted := true, content := deletedContent })
        ({ s with rooms := mapSet s.rooms rid { room with messages := msgs1 } },
         [Emit.toRoom rid (Payload.messageDeleted messageId)])
      else (s, []))

/-- The `update-settings` handler. -/
def updateSettingsH (s : ServerState) (sid : String) (patch : SettingsPatch) :
    ServerState × List Emit :=
  withRoom s sid (fun _conn rid room =>
    let st := mergeSettings room.settings patch
    ({ s with rooms := mapSet s.rooms rid { room with settings := st } },
     [Emit.toRoom rid (Payload.settingsUpdated st)]))

/-- The `kick-member` handler.  The guard is
`room && room.createdBy === currentUser.name`; whether the requester is
itself still a member of the room is never checked.  The target socket, when
connected, is made to leave the channel and is sent `kicked`, but it is not
disconnected from the server. -/
def kickMemberH (s : ServerState) (sid targetId : String) :
    ServerState × List Emit :=
  withRoom s sid (fun conn rid room =>
    match conn.currentUser with
    | none => (s, [])
    | some u =>
      if room.createdBy == u.name then
        let room1 := { room with members := mapDelete room.members targetId }
        let targetConnected := targetId ∈ s.connected
        ({ s with rooms := mapSet s.rooms rid room1,
                  channels := if targetConnected then
                      channelLeave s.channels rid targetId
                    else s.channels },
         (if targetConnected then [Emit.toSocket targetId (Payload.kicked room.name)]
          else []) ++
           [Emit.toRoom rid (Payload.userLeftKick targetId room1.members)])
      else (s, []))

/-- The `presence-update` handler. -/
def presenceUpdateH (s : ServerState) (sid status : String) :
    ServerState × List Emit :=
  withRoom s sid (fun _conn rid room =>
    match aget room.members sid with
    | none => (s, [])
    | some m =>
      let mems1 := mapSet room.members sid { m with status := some status }
      ({ s with rooms := mapSet s.rooms rid { room with members := mems1 } },
       [Emit.toRoom rid (Payload.presenceChanged sid status)]))

/-- The `typing-start` handler (checks both closure variables, touches no
room state). -/
def typingStartH (s : ServerState) (sid : String) : ServerState × List Emit :=
  match aget s.conns sid with
  | none => (s, [])
  | some conn =>
    match conn.currentRoom, conn.currentUser with
    | some rid, some u =>
      (s, [Emit.toOthers rid sid (Payload.userTyping sid u.name)])
    | _, _ => (s, [])

/-- The `typing-stop` handler (checks only `currentRoom`). -/
def typingStopH (s : ServerState) (sid : String) : ServerState × List Emit :=
  match aget s.conns sid with
  | none => (s, [])
  | some conn =>
    match conn.currentRoom with
    | none => (s, [])
    | some rid => (s, [Emit.toOthers rid sid (Payload.userStoppedTyping sid)])

/-- The `join-voice` handler. -/
def joinVoiceH (s : ServerState) (sid : String) : ServerState × List Emit :=
  match aget s.conns sid with
  | none => (s, [])
  | some conn =>
    match conn.currentRoom with
    | none => (s, [])
    | some rid => (s, [Emit.toOthers rid sid (Payload.userJoinedVoice sid)])

/-- The `leave-voice` handler. -/
def leaveVoiceH (s : ServerState) (sid : String) : ServerState × List Emit :=
  match aget s.conns sid with
  | none => (s, [])
  | some conn =>
    match conn.currentRoom with
    | none => (s, [])
    | some rid => (s, [Emit.toOthers rid sid (Payload.userLeftVoice sid)])

/-- The `canvas-stroke` relay. -/
def canvasStrokeH (s : ServerState) (sid data : String) :
    ServerState × List Emit :=
  match aget s.conns sid with
  | none => (s, [])
  | some conn =>
    match conn.currentRoom with
    | none => (s, [])
    | some rid => (s, [Emit.toOthers rid sid (Payload.canvasStroke data)])

/-- The `handshake-init` broker step. -/
def handshakeInitH (s : ServerState) (sid pk : String) :
    ServerState × List Emit :=
  match aget s.conns sid with
  | none => (s, [])
  | some conn =>
    match conn.currentRoom with
    | none => (s, [])
    | some rid => (s, [Emit.toOthers rid sid (Payload.handshakeRequest sid pk)])

/-- The `voice-signal` relay: `io.to(targetId).emit(...)` with no
`currentRoom` check, no membership check, and no state change. -/
def voiceSignalH (s : ServerState) (sid targetId signal : String) :
    ServerState × List Emit :=
  (s, [Emit.toSocket targetId (Payload.voiceSignal sid signal)])

/-- The `handshake-response` relay: `io.to(targetId).emit(...)`,
unconditional like `voice-signal`. -/
def handshakeResponseH (s : ServerState) (_sid targetId ciphertext
    encryptedKey : String) : ServerState × List Emit :=
  (s, [Emit.toSocket targetId
        (Payload.handshakeComplete ciphertext encryptedKey)])

/-- The disappearance `setTimeout` callback: if the message is still in the
log, redact it with the canonical disappeared string and broadcast
`message-deleted`; the pending timer is consumed either way. -/
def fireTimerH (s : ServerState) (rid mid : String) :
    ServerState × List Emit :=
  match aget s.rooms rid with
  | none => ({ s with timers := removeTimer s.timers rid mid }, [])
  | some room =>
    if room.messages.any (fun m => m.id == mid) then
      let msgs1 := updateFirstMsg room.messages mid
        (fun m => { m with deleted := true, content := disappearedContent })
      ({ s with rooms := mapSet s.rooms rid { room with messages := msgs1 },
                timers := removeTimer s.timers rid mid },
       [Emit.toRoom rid (Payload.messageDeleted mid)])
    else ({ s with timers := removeTimer s.timers rid mid }, [])

/-- The room-mutating part of the `disconnect` handler: remove the member
and broadcast `user-left` with the full user object. -/
def disconnectRoomPart (s : ServerState) (sid : String) :
    ServerState × List Emit :=
  match aget s.conns sid with
  | none => (s, [])
  | some conn =>
    match conn.currentRoom, conn.currentUser with
    | some rid, some u =>
      (match aget s.rooms rid with
       | none => (s, [])
       | some room =>
         let room1 := { room with members := mapDelete room.members sid }
         ({ s with rooms := mapSet s.rooms rid room1 },
          [Emit.toRoom rid (Payload.userLeftDisc u room1.members)]))
    | _, _ => (s, [])

/-- The `disconnect` handler: the room-mutating part followed by dropping
the closure state, the channel memberships and the connection
registration. -/
def disconnectH (s : ServerState) (sid : String) : ServerState × List Emit :=
  let base := disconnectRoomPart s sid
  ({ base.1 with conns := mapDelete base.1.conns sid,
                 connected := base.1.connected.erase sid,
                 channels := base.1.channels.map (fun p => (p.1, p.2.erase sid)) },
   base.2)

/-- Inbound operations of the server state machine.  Server-minted values
(`uuidv4()`, `Date.now()`) are carried as explicit fields.  The `joinRoom`
payload includes the client's persistent `userId` exactly as the wire
protocol sends it; the handler drops it. -/
inductive Op where
  | connect (sid : String)
  | joinRoom (sid roomId userId userName userAvatar : String) (now : Nat)
  | sendMessage (sid content : String) (ty : Option String)
      (replyTo : Option String) (fileData : Option FileData)
      (newId : String) (now : Nat)
  | voiceMessage (sid audioData : String) (duration : Nat) (waveform : String)
      (newId : String) (now : Nat)
  | typingStart (sid : String)
  | typingStop (sid : String)
  | addReaction (sid messageId emoji : String)
  | markRead (sid : String) (messageIds : List String)
  | editMessage (sid messageId newContent : String) (now : Nat)
  | deleteMessage (sid messageId : String)
  | updateSettings (sid : String) (patch : SettingsPatch)
  | kickMember (sid targetId : String)
  | presenceUpdate (sid status : String)
  | joinVoice (sid : String)
  | leaveVoice (sid : String)
  | canvasStroke (sid data : String)
  | handshakeInit (sid pk : String)
  | handshakeResponse (sid targetId ciphertext encryptedKey : String)
  | voiceSignal (sid targetId signal : String)
  | fireTimer (roomId messageId : String)
  | disconnect (sid : String)
deriving Repr, DecidableEq

/-- Dispatch an inbound operation to its handler. -/
def applyOp (s : ServerState) (op : Op) : ServerState × List Emit :=
  match op with
  | Op.connect sid => connectH s sid
  | Op.joinRoom sid roomId _userId userName userAvatar now =>
    joinRoomH s sid roomId userName userAvatar now
  | Op.sendMessage sid content ty replyTo fileData newId now =>
    sendMessageH s sid content ty replyTo fileData newId now
  | Op.voiceMessage sid audioData duration waveform newId now =>
    voiceMessageH s sid audioData duration waveform newId now
  | Op.typingStart sid => typingStartH s sid
  | Op.typingStop sid => typingStopH s sid
  | Op.addReaction sid messageId emoji => addReactionH s sid messageId emoji
  | Op.markRead sid messageIds => markReadH s sid messageIds
  | Op.editMessage sid messageId newContent now =>
    editMessageH s sid messageId newContent now
  | Op.deleteMessage sid messageId => deleteMessageH s sid messageId
  | Op.updateSettings sid patch => updateSettingsH s sid patch
  | Op.kickMember sid targetId => kickMemberH s sid targetId
  | Op.presenceUpdate sid status => presenceUpdateH s sid status
  | Op.joinVoice sid => joinVoiceH s sid
  | Op.leaveVoice sid => leaveVoiceH s sid
  | Op.canvasStroke sid data => canvasStrokeH s sid data
  | Op.handshakeInit sid pk => handshakeInitH s sid pk
  | Op.handshakeResponse sid targetId ciphertext encryptedKey =>
    handshakeResponseH s sid targetId ciphertext encryptedKey
  | Op.voiceSignal sid targetId signal => voiceSignalH s sid targetId signal
  | Op.fireTimer roomId messageId => fireTimerH s roomId messageId
  | Op.disconnect sid => disconnectH s sid

/-- Run a sequence of operations, discarding emissions. -/
def applyOps (s : ServerState) (ops : List Op) : ServerState :=
  ops.foldl (fun st op => (applyOp st op).1) s

/-- One room record of the local `data/rooms.json` snapshot: the room fields
spread together with the members map as an entry array and the messages
verbatim. -/
structure LocalRoomData where
  id : String
  name : String
  createdBy : String
  createdAt : Nat
  settings : Settings
  members : List (String × MemberData)
  messages : List Message
deriving Repr, DecidableEq

/-- One iteration of the local `loadRooms` loop: construct the `Room`, then
overwrite `createdAt`, `settings` and `messages`.  The persisted `members`
array is present in the snapshot but never applied, so the members map stays
empty; the constructor's `new Date()` is immediately overwritten and is
passed as `0` here. -/
def loadOneLocal (rd : LocalRoomData) : Room :=
  let room := newRoom rd.id (some rd.name) rd.createdBy 0
  { room with createdAt := rd.createdAt, settings := rd.settings,
              messages := rd.messages }

/-- The local branch of `loadRooms`: fold the parsed snapshot into the
`rooms` map with `rooms.set(room.id, room)`. -/
def loadRoomsLocal (data : List LocalRoomData)
    (rooms : List (String × Room)) : List (String × Room) :=
  data.foldl (fun acc rd => mapSet acc rd.id (loadOneLocal rd)) rooms

/-- The local branch of `loadRooms` acting on the whole server state: only
the `rooms` map is written; no timer is scheduled, no message inspected. -/
def loadRoomsLocalState (data : List LocalRoomData) (s : ServerState) :
    ServerState :=
  { s with rooms := loadRoomsLocal data s.rooms }

/-- One message of a Firestore room document, as persisted by `saveRooms`
(the optional maps mirror the `|| {}` / `|| []` recovery on load). -/
structure FirestoreMessage where
  id : String
  roomId : String
  senderId : String
  senderName : String
  senderAvatar : String
  content : String
  type : Option String
  timestamp : Nat
  replyTo : Option String
  reactions : Option (List (String × List String))
  readBy : Option (List String)
  edited : Bool
  editedAt : Option Nat
  deleted : Bool
  disappearAt : Option Nat
  fileData : Option FileData
deriving Repr, DecidableEq

/-- The Firebase hydration of one message: `new Message(m)` followed by
overwriting `id`, `timestamp`, `reactions`, `readBy` and `fileData`.  The
constructor's minted id and timestamp are immediately overwritten (passed
here as `""` and `0`); every field the hydration does not overwrite keeps
the constructor's value, so `deleted` and `edited` come back `false` and
`editedAt` comes back `null` regardless of what was persisted. -/
def hydrateMessage (m : FirestoreMessage) : Message :=
  let msg := mkMessage "" 0
    { roomId := m.roomId, senderId := m.senderId, senderName := m.senderName,
      senderAvatar := m.senderAvatar, content := m.content, type := m.type,
      replyTo := m.replyTo, disappearAt := m.disappearAt,
      fileData := m.fileData }
  { msg with id := m.id, timestamp := m.timestamp,
             reactions := m.reactions.getD [],
             readBy := m.readBy.getD [], fileData := m.fileData }

/-- One Firestore room document. -/
structure FirestoreRoomData where
  id : String
  name : String
  createdBy : String
  createdAt : Nat
  settings : Settings
  messages : List FirestoreMessage
deriving Repr, DecidableEq

/-- One iteration of the Firebase `loadRooms` loop. -/
def loadOneFirebase (rd : FirestoreRoomData) : Room :=
  let room := newRoom rd.id (some rd.name) rd.createdBy 0
  { room with createdAt := rd.createdAt, settings := rd.settings,
              messages := rd.messages.map hydrateMessage }

/-- The Firebase branch of `loadRooms` acting on the server state: like the
local branch it only writes the `rooms` map. -/
def loadRoomsFirebaseState (docs : List FirestoreRoomData) (s : ServerState) :
    ServerState :=
  let rooms1 := docs.foldl (fun acc rd => mapSet acc rd.id (loadOneFirebase rd)) s.rooms
  { s with rooms := rooms1 }

/-- The tombstone invariant of one message: a deleted message carries one of
the two canonical redacted strings. -/
def DelContentOK (m : Message) : Prop :=
  m.deleted = true → m.content = deletedContent ∨ m.content = disappearedContent

/-- The tombstone invariant over the whole server state. -/
def DelInv (s : ServerState) : Prop :=
  ∀ p ∈ s.rooms, ∀ m ∈ p.2.messages, DelContentOK m

/-- The sender is recorded in the `readBy` list of every stored message. -/
def ReadByInv (s : ServerState) : Prop :=
  ∀ p ∈ s.rooms, ∀ m ∈ p.2.messages, m.senderId ∈ m.readBy

/-- Well-formedness of a message's reactions object: every emoji bucket is a
non-empty duplicate-free list of session ids. -/
def ReactWF (msg : Message) : Prop :=
  ∀ p ∈ msg.reactions, p.2 ≠ [] ∧ p.2.Nodup

/-- Keys of an association list are pairwise distinct. -/
def KeysNodup {α : Type} (m : List (String × α)) : Prop :=
  (m.map (fun p => p.1)).Nodup

/-- Projection of a message log to ids and disappearance stamps; used to
state that no operation rewrites `disappearAt` of an existing message. -/
def dmap (msgs : List Message) : List (String × Option Nat) :=
  msgs.map (fun m => (m.id, m.disappearAt))

/-- Decidable side condition under which the tombstone invariant is
preserved: the operation is not an `edit-message` that reaches a deleted
message (the handler itself never tests `deleted`). -/
def editSafeB (s : ServerState) (op : Op) : Bool :=
  match op with
  | Op.editMessage sid messageId _ _ =>
    (match aget s.conns sid with
     | none => true
     | some conn =>
       match conn.currentRoom with
       | none => true
       | some rid =>
         match aget s.rooms rid with
         | none => true
         | some room =>
           match room.messages.find? (fun m => m.id == messageId) with
           | none => true
           | some m => !(m.senderId == sid) || !m.deleted)
  | _ => true

/-- A snapshot room holding one undeleted message whose `disappearAt` (5)
is already in the past at any load time at or after 5. -/
def c1Msg : Message :=
  { id := "m1", roomId := "r1", senderId := "a", senderName := "Alice",
    senderAvatar := "", content := "x", type := "text", timestamp := 1,
    replyTo := none, reactions := [], readBy := ["a"], edited := false,
    editedAt := none, deleted := false, disappearAt := some 5,
    fileData := none }

/-- The snapshot record wrapping `c1Msg`. -/
def c1RoomData : LocalRoomData :=
  { id := "r1", name := "Room r1", createdBy := "Alice", createdAt := 0,
    settings := { defaultSettings with disappearingMessages := some 5000 },
    members := [], messages := [c1Msg] }

/-- Two sessions joining the same room with the same persistent `userId`. -/
def c2Trace : List Op :=
  [Op.connect "s1", Op.joinRoom "s1" "r2" "u" "Alice" "A" 0,
   Op.connect "s2", Op.joinRoom "s2" "r2" "u" "Alice" "A" 1]

/-- Post, delete, then edit the deleted message (by its sender). -/
def c3Trace : List Op :=
  [Op.connect "a3", Op.joinRoom "a3" "r3" "uA" "Alice" "A" 0,
   Op.sendMessage "a3" "hello" none none none "m3" 1,
   Op.deleteMessage "a3" "m3",
   Op.editMessage "a3" "m3" "hacked" 2]

/-- Creator Alice evicts Bob; Bob's closure still points at the room. -/
def c4Base : List Op :=
  [Op.connect "a4", Op.joinRoom "a4" "r4" "uA" "Alice" "A" 0,
   Op.connect "b4", Op.joinRoom "b4" "r4" "uB" "Bob" "B" 1,
   Op.kickMember "a4" "b4"]

/-- The server state after `c4Base`. -/
def c4State : ServerState := applyOps initialState c4Base

/-- The post the evicted Bob sends afterwards. -/
def c4Send : Op := Op.sendMessage "b4" "sneaky" none none none "m4" 2

/-- Two sessions in two different rooms. -/
def c5Base : List Op :=
  [Op.connect "a5", Op.joinRoom "a5" "rA" "uA" "Alice" "A" 0,
   Op.connect "b5", Op.joinRoom "b5" "rB" "uB" "Bob" "B" 1]

/-- The server state after `c5Base`. -/
def c5State : ServerState := applyOps initialState c5Base

/-- Post then delete a message; the edit is applied on top of this state. -/
def c6Trace : List Op :=
  [Op.connect "e6", Op.joinRoom "e6" "r6" "uE" "Eve" "E" 0,
   Op.sendMessage "e6" "hi" none none none "m6" 3,
   Op.deleteMessage "e6" "m6"]

/-- The server state after `c6Trace`. -/
def c6State : ServerState := applyOps initialState c6Trace

/-- The sender's edit of the already-deleted message. -/
def c6Edit : Op := Op.editMessage "e6" "m6" "rewritten" 7

/-- The patch enabling disappearing messages at 5000 ms. -/
def c7Patch : SettingsPatch :=
  { disappearingMessages := some (some 5000), maxMembers := none,
    isPrivate := none, allowFileSharing := none, allowVoiceMessages := none }

/-- Enable disappearing messages, then post a voice message. -/
def c7Trace : List Op :=
  [Op.connect "v7", Op.joinRoom "v7" "r7" "uV" "Vera" "V" 0,
   Op.updateSettings "v7" c7Patch,
   Op.voiceMessage "v7" "ZGF0YQ" 3 "wave" "m7" 10]

/-- The server state after `c7Trace`. -/
def c7State : ServerState := applyOps initialState c7Trace

/-- The creator evicts a namesake member; the evicted namesake (no longer a
member, with the creator's display name) then evicts Bob. -/
def c8Base : List Op :=
  [Op.connect "a8", Op.joinRoom "a8" "r8" "u1" "Alice" "A" 0,
   Op.connect "b8", Op.joinRoom "b8" "r8" "u2" "Bob" "B" 1,
   Op.connect "c8", Op.joinRoom "c8" "r8" "u3" "Alice" "C" 2,
   Op.kickMember "a8" "c8"]

/-- The server state after `c8Base`. -/
def c8State : ServerState := applyOps initialState c8Base

/-- The evict issued by the evicted namesake. -/
def c8Kick : Op := Op.kickMember "c8" "b8"

/-- Build a reaction bucket `["y9", "x9"]` on message `m9`. -/
def c9Base : List Op :=
  [Op.connect "x9", Op.joinRoom "x9" "r9" "ux" "Xena" "X" 0,
   Op.connect "y9", Op.joinRoom "y9" "r9" "uy" "Yuri" "Y" 1,
   Op.sendMessage "x9" "hey" none none none "m9" 2,
   Op.addReaction "y9" "m9" "thumb",
   Op.addReaction "x9" "m9" "thumb"]

/-- The server state after `c9Base`. -/
def c9State : ServerState := applyOps initialState c9Base

/-- The double toggle by `y9`, the session at the head of the bucket. -/
def c9Toggle : List Op :=
  [Op.addReaction "y9" "m9" "thumb", Op.addReaction "y9" "m9" "thumb"]

/-- The reaction bucket of message `m9` in room `r9` of a state. -/
def c9Bucket (s : ServerState) : Option (List String) :=
  match aget s.rooms "r9" with
  | none => none
  | some room =>
    match room.messages.find? (fun m => m.id == "m9") with
    | none => none
    | some msg => aget msg.reactions "thumb"

/-- Per-message mutators used by the handlers preserve the message id, the
disappearance stamp, the sender, and never shrink `readBy`. -/
def updOK (f : Message → Message) : Prop :=
  ∀ m : Message, (f m).id = m.id ∧ (f m).disappearAt = m.disappearAt ∧
    (f m).senderId = m.senderId ∧ m.readBy ⊆ (f m).readBy

/-- Whether an operation is an `edit-message` event. -/
def isEditOp : Op → Bool
  | Op.editMessage _ _ _ _ => true
  | _ => false

/-- How one operation can transform a room's message log: unchanged, one
appended freshly constructed message, an in-place update of the first
matching message by one of the handler mutators, or a composition (the
`mark-read` loop).  The flag records whether the content-rewriting
`edit-message` mutator may occur. -/
inductive MsgRel : Bool → List Message → List Message → Prop where
  | same (e : Bool) (msgs : List Message) : MsgRel e msgs msgs
  | post (e : Bool) (msgs : List Message) (msg : Message)
      (h : msg.readBy = [msg.senderId] ∧ msg.deleted = false) :
      MsgRel e msgs (msgs ++ [msg])
  | updD (e : Bool) (msgs : List Message) (mid : String)
      (f : Message → Message) (hf : updOK f)
      (hdel : ∀ m, DelContentOK m → DelContentOK (f m)) :
      MsgRel e msgs (updateFirstMsg msgs mid f)
  | updE (msgs : List Message) (mid newContent : String) (t : Nat) :
      MsgRel true msgs (updateFirstMsg msgs mid
        (fun m => { m with content := newContent, edited := true,
                           editedAt := some t }))
  | steps (e : Bool) (a b c : List Message) :
      MsgRel e a b → MsgRel e b c → MsgRel e a c

/-- A throwaway user object for concrete instantiations. -/
def wUser (sid name : String) : UserObj :=
  { id := sid, name := name, avatar := "", color := "" }

/-- A throwaway closure state pointing at a room. -/
def wConn (rid : String) (u : UserObj) : ConnState :=
  { currentRoom := some rid, currentUser := some u }

/-- A state in which session `sw4` has `currentRoom = rw4` but is not a
member of room `rw4`. -/
def w4State : ServerState :=
  { rooms := [("rw4", newRoom "rw4" none "W" 0)],
    conns := [("sw4", wConn "rw4" (wUser "sw4" "W"))],
    channels := [], timers := [], connected := ["sw4"] }

/-- An already-deleted tombstone message owned by `sw6`. -/
def w6Msg : Message :=
  { id := "mw6", roomId := "rw6", senderId := "sw6", senderName := "W",
    senderAvatar := "", content := deletedContent, type := "text",
    timestamp := 0, replyTo := none, reactions := [], readBy := ["sw6"],
    edited := false, editedAt := none, deleted := true, disappearAt := none,
    fileData := none }

/-- A room whose log holds only the tombstone `w6Msg`. -/
def w6Room : Room := { (newRoom "rw6" none "W" 0) with messages := [w6Msg] }

/-- A state in which `sw6` sits in room `rw6` with its deleted message. -/
def w6State : ServerState :=
  { rooms := [("rw6", w6Room)],
    conns := [("sw6", wConn "rw6" (wUser "sw6" "W"))],
    channels := [], timers := [], connected := ["sw6"] }

/-- A room with disappearing messages enabled at 4 ms. -/
def w7Room : Room :=
  { (newRoom "rw7" none "W" 0) with
    settings := { defaultSettings with disappearingMessages := some 4 } }

/-- A state in which `sw7` sits in the disappearing-enabled room `rw7`. -/
def w7State : ServerState :=
  { rooms := [("rw7", w7Room)],
    conns := [("sw7", wConn "rw7" (wUser "sw7" "W"))],
    channels := [], timers := [], connected := ["sw7"] }

/-- A room created by display name `W`. -/
def w8Room : Room := newRoom "rw8" none "W" 0

/-- A state with the creator-named session `sw8`, a connected target `tw8`
inside the room channel, and a differently named session `zw8`. -/
def w8State : ServerState :=
  { rooms := [("rw8", w8Room)],
    conns := [("sw8", wConn "rw8" (wUser "sw8" "W")),
              ("zw8", wConn "rw8" (wUser "zw8" "Z"))],
    channels := [("rw8", ["tw8"])], timers := [],
    connected := ["sw8", "tw8", "zw8"] }

/-- A message with a two-element reaction bucket headed by `p9`. -/
def w9Msg : Message :=
  { id := "mw9", roomId := "rw9", senderId := "p9", senderName := "P",
    senderAvatar := "", content := "c", type := "text", timestamp := 0,
    replyTo := none, reactions := [("thumb", ["p9", "q9"])],
    readBy := ["p9"], edited := false, editedAt := none, deleted := false,
    disappearAt := none, fileData := none }

/-- A message whose sender `swX` is (alone) in its `readBy` list. -/
def w10Msg : Message :=
  { id := "mwX", roomId := "rwX", senderId := "swX", senderName := "W",
    senderAvatar := "", content := "c", type := "text", timestamp := 0,
    replyTo := none, reactions := [], readBy := ["swX"], edited := false,
    editedAt := none, deleted := false, disappearAt := none,
    fileData := none }

/-- A room holding only `w10Msg`. -/
def w10Room : Room := { (newRoom "rwX" none "W" 0) with messages := [w10Msg] }

/-- A state in which the sender `swX` sits in room `rwX`. -/
def w10State : ServerState :=
  { rooms := [("rwX", w10Room)],
    conns := [("swX", wConn "rwX" (wUser "swX" "W"))],
    channels := [], timers := [], connected := ["swX"] }

/-- The possible effect of one operation on the `rooms` map: unchanged, or
one entry written whose message log evolves by `MsgRel` from the entry
previously found under that key (or the key was absent and the log of the
written room is empty). -/
def RoomsShape (s : ServerState) (e : Bool) (r : ServerState × List Emit) :
    Prop :=
  r.1.rooms = s.rooms ∨
  ∃ rid0 room1, r.1.rooms = mapSet s.rooms rid0 room1 ∧
    ((∃ room0, aget s.rooms rid0 = some room0 ∧
        MsgRel e room0.messages room1.messages) ∨
     (aget s.rooms rid0 = none ∧ room1.messages = []))

theorem aget_cons {α : Type} (p : String × α) (m : List (String × α))
    (k : String) :
    aget (p :: m) k = if p.1 == k then some p.2 else aget m k := by
  cases h : p.1 == k <;> simp [aget, List.find?, h]

theorem aget_mem {α : Type} {m : List (String × α)} {k : String} {v : α}
    (h : aget m k = some v) : ∃ p, p ∈ m ∧ p.2 = v := by
  unfold aget at h
  cases hf : m.find? (fun p => p.1 == k) with
  | none => rw [hf] at h; simp at h
  | some p =>
    rw [hf] at h
    exact ⟨p, List.mem_of_find?_eq_some hf, by simpa using h⟩

theorem aget_eq_none_keys {α : Type} {m : List (String × α)} {k : String}
    (h : aget m k = none) : ∀ p ∈ m, ¬(p.1 = k) := by
  intro p hp hk
  unfold aget at h
  cases hf : m.find? (fun p => p.1 == k) with
  | none =>
    have := List.find?_eq_none.mp hf p hp
    simp [hk] at this
  | some q => rw [hf] at h; simp at h

theorem mem_mapSet {α : Type} {m : List (String × α)} {k : String} {v : α}
    {p : String × α} (h : p ∈ mapSet m k v) :
    p = (k, v) ∨ (p ∈ m ∧ ¬(p.1 = k)) := by
  unfold mapSet at h
  split at h
  · rcases List.mem_map.mp h with ⟨q, hq, hpq⟩
    by_cases hk : (q.1 == k) = true
    · left; rw [← hpq]; simp [hk]
    · right
      have hqp : p = q := by rw [← hpq]; simp [hk]
      subst hqp
      exact ⟨hq, by simpa using hk⟩
  · rename_i habs
    rcases List.mem_append.mp h with h1 | h1
    · right
      refine ⟨h1, ?_⟩
      have : aget m k = none := by
        cases hg : aget m k with
        | none => rfl
        | some w => rw [hg] at habs; simp at habs
      exact aget_eq_none_keys this p h1
    · left; simpa using h1

theorem mem_mapDelete {α : Type} {m : List (String × α)} {k : String}
    {p : String × α} (h : p ∈ mapDelete m k) : p ∈ m ∧ ¬(p.1 = k) := by
  unfold mapDelete at h
  have h2 := List.mem_filter.mp h
  exact ⟨h2.1, by simpa using h2.2⟩

theorem aget_map_replace {α : Type} (m : List (String × α)) (k : String)
    (v : α) (hp : (aget m k).isSome = true) :
    aget (m.map (fun q => if q.1 == k then (k, v) else q)) k = some v := by
  induction m with
  | nil => simp [aget] at hp
  | cons p t ih =>
    rw [aget_cons] at hp
    rw [List.map_cons]
    cases h : p.1 == k with
    | true =>
      simp only [h, if_true]
      simp [aget_cons]
    | false =>
      simp only [h] at hp
      simp only [Bool.false_eq_true, if_false] at hp
      simp only [h, Bool.false_eq_true, if_false]
      rw [aget_cons, h]
      simp only [Bool.false_eq_true, if_false]
      exact ih hp

theorem aget_map_replace_ne {α : Type} (m : List (String × α)) (k k2 : String)
    (v : α) (hne : ¬(k2 = k)) :
    aget (m.map (fun q => if q.1 == k then (k, v) else q)) k2 = aget m k2 := by
  induction m with
  | nil => rfl
  | cons p t ih =>
    rw [List.map_cons, aget_cons]
    cases h : p.1 == k with
    | true =>
      have hk : p.1 = k := by simpa using h
      have h2 : ((k : String) == k2) = false :=
        beq_eq_false_iff_ne.mpr (fun hh => hne hh.symm)
      simp only [h, if_true]
      rw [aget_cons, h2]
      have h3 : (p.1 == k2) = false := by rw [hk]; exact h2
      rw [h3]
      simp only [Bool.false_eq_true, if_false]
      exact ih
    | false =>
      simp only [h, Bool.false_eq_true, if_false]
      rw [aget_cons, ih]

theorem aget_append_single_self {α : Type} (m : List (String × α))
    (k : String) (v : α) (hnone : aget m k = none) :
    aget (m ++ [(k, v)]) k = some v := by
  induction m with
  | nil => simp [aget_cons]
  | cons p t ih =>
    rw [aget_cons] at hnone
    rw [List.cons_append, aget_cons]
    cases h : p.1 == k with
    | true => rw [h] at hnone; simp at hnone
    | false =>
      rw [h] at hnone
      simp only [Bool.false_eq_true, if_false] at hnone
      simp only [Bool.false_eq_true, if_false]
      exact ih hnone

theorem aget_isSome_of_none {α : Type} {m : List (String × α)} {k : String}
    (h : ¬((aget m k).isSome = true)) : aget m k = none := by
  cases hg : aget m k with
  | none => rfl
  | some w => rw [hg] at h; simp at h

theorem aget_mapSet_self {α : Type} (m : List (String × α)) (k : String)
    (v : α) : aget (mapSet m k v) k = some v := by
  unfold mapSet
  split
  · exact aget_map_replace m k v (by assumption)
  · rename_i habs
    exact aget_append_single_self m k v (aget_isSome_of_none habs)

theorem aget_append_single_ne {α : Type} (m : List (String × α))
    (k k2 : String) (v : α) (hne : ¬(k2 = k)) :
    aget (m ++ [(k, v)]) k2 = aget m k2 := by
  induction m with
  | nil =>
    have h2 : ((k : String) == k2) = false :=
      beq_eq_false_iff_ne.mpr (fun hh => hne hh.symm)
    simp [aget_cons, h2, aget]
  | cons p t ih =>
    rw [List.cons_append, aget_cons, aget_cons]
    cases h : p.1 == k2 with
    | true => rfl
    | false => simp only [Bool.false_eq_true, if_false]; exact ih

theorem aget_mapSet_ne {α : Type} (m : List (String × α)) (k k2 : String)
    (v : α) (hne : ¬(k2 = k)) : aget (mapSet m k v) k2 = aget m k2 := by
  unfold mapSet
  split
  · exact aget_map_replace_ne m k k2 v hne
  · exact aget_append_single_ne m k k2 v hne

theorem map_replace_id {α : Type} (m : List (String × α)) (k : String)
    (v : α) (h : ∀ p ∈ m, ¬(p.1 = k)) :
    m.map (fun q => if q.1 == k then (k, v) else q) = m := by
  induction m with
  | nil => rfl
  | cons p t ih =>
    rw [List.map_cons]
    have hp : (p.1 == k) = false := beq_eq_false_iff_ne.mpr (h p (by simp))
    simp only [hp, Bool.false_eq_true, if_false]
    rw [ih (fun q hq => h q (by simp [hq]))]

theorem mapSet_present {α : Type} (m : List (String × α)) (k : String)
    (v : α) (hp : (aget m k).isSome = true) :
    mapSet m k v = m.map (fun q => if q.1 == k then (k, v) else q) := by
  unfold mapSet
  rw [if_pos hp]

theorem mapSet_absent {α : Type} (m : List (String × α)) (k : String)
    (v : α) (hp : ¬((aget m k).isSome = true)) :
    mapSet m k v = m ++ [(k, v)] := by
  unfold mapSet
  rw [if_neg hp]

theorem map_replace_eq_self {α : Type} (m : List (String × α)) (k : String)
    (v : α) (hn : KeysNodup m) (h : aget m k = some v) :
    m.map (fun q => if q.1 == k then (k, v) else q) = m := by
  induction m with
  | nil => rfl
  | cons p t ih =>
    rw [aget_cons] at h
    rw [List.map_cons]
    cases hh : p.1 == k with
    | true =>
      rw [hh] at h
      simp only [if_true] at h
      have hk : p.1 = k := by simpa using hh
      have hv : p.2 = v := by simpa using h
      have hkeys : ∀ q ∈ t, ¬(q.1 = k) := by
        intro q hq hqk
        have hnodup : p.1 ∉ t.map (fun r => r.1) := by
          have h0 := hn
          unfold KeysNodup at h0
          rw [List.map_cons] at h0
          exact (List.nodup_cons.mp h0).1
        exact hnodup (by rw [hk, ← hqk]; exact List.mem_map_of_mem _ hq)
      rw [map_replace_id t k v hkeys]
      congr 1
      simp only [hh, if_true]
      cases p
      simp only at hk hv
      simp [hk, hv]
    | false =>
      rw [hh] at h
      simp only [Bool.false_eq_true, if_false] at h
      simp only [hh, Bool.false_eq_true, if_false]
      have hn2 : KeysNodup t := by
        unfold KeysNodup at hn ⊢
        rw [List.map_cons] at hn
        exact (List.nodup_cons.mp hn).2
      rw [ih hn2 h]

theorem mapSet_eq_self {α : Type} {m : List (String × α)} {k : String}
    {v : α} (hn : KeysNodup m) (h : aget m k = some v) : mapSet m k v = m := by
  have hp : (aget m k).isSome = true := by rw [h]; rfl
  rw [mapSet_present m k v hp]
  exact map_replace_eq_self m k v hn h

theorem map_replace_twice {α : Type} (m : List (String × α)) (k : String)
    (v1 v2 : α) :
    (m.map (fun q => if q.1 == k then (k, v1) else q)).map
        (fun q => if q.1 == k then (k, v2) else q) =
      m.map (fun q => if q.1 == k then (k, v2) else q) := by
  induction m with
  | nil => rfl
  | cons p t ih =>
    rw [List.map_cons, List.map_cons, List.map_cons, ih]
    congr 1
    cases hp : p.1 == k with
    | true => simp [hp]
    | false => simp [hp]

theorem mapSet_mapSet {α : Type} (m : List (String × α)) (k : String)
    (v1 v2 : α) : mapSet (mapSet m k v1) k v2 = mapSet m k v2 := by
  have h2 : (aget (mapSet m k v1) k).isSome = true := by
    rw [aget_mapSet_self]; rfl
  by_cases hp : (aget m k).isSome = true
  · rw [mapSet_present (mapSet m k v1) k v2 h2, mapSet_present m k v1 hp,
        mapSet_present m k v2 hp]
    exact map_replace_twice m k v1 v2
  · have hnone := aget_isSome_of_none hp
    rw [mapSet_present (mapSet m k v1) k v2 h2, mapSet_absent m k v1 hp,
        mapSet_absent m k v2 hp, List.map_append,
        map_replace_id m k v2 (aget_eq_none_keys hnone)]
    simp

theorem mem_updateFirstMsg {msgs : List Message} {mid : String}
    {f : Message → Message} {p : Message}
    (h : p ∈ updateFirstMsg msgs mid f) :
    p ∈ msgs ∨ ∃ m0, msgs.find? (fun x => x.id == mid) = some m0 ∧ p = f m0 := by
  induction msgs with
  | nil => simp [updateFirstMsg] at h
  | cons m t ih =>
    unfold updateFirstMsg at h
    cases hm : m.id == mid with
    | true =>
      rw [hm] at h
      simp only [if_true] at h
      rcases List.mem_cons.mp h with h1 | h1
      · right; exact ⟨m, by simp [List.find?, hm], h1⟩
      · left; exact List.mem_cons_of_mem _ h1
    | false =>
      rw [hm] at h
      simp only [Bool.false_eq_true, if_false] at h
      rcases List.mem_cons.mp h with h1 | h1
      · left; simp [h1]
      · rcases ih h1 with h2 | ⟨m0, hf, hp⟩
        · left; exact List.mem_cons_of_mem _ h2
        · right; exact ⟨m0, by simp [List.find?, hm, hf], hp⟩

theorem dmap_append (a b : List Message) :
    dmap (a ++ b) = dmap a ++ dmap b := by
  unfold dmap; exact List.map_append _ a b

theorem dmap_updateFirstMsg (msgs : List Message) (mid : String)
    (f : Message → Message) (hid : ∀ m, (f m).id = m.id)
    (hdis : ∀ m, (f m).disappearAt = m.disappearAt) :
    dmap (updateFirstMsg msgs mid f) = dmap msgs := by
  induction msgs with
  | nil => rfl
  | cons m t ih =>
    unfold updateFirstMsg
    cases hm : m.id == mid with
    | true =>
      simp only [if_true]
      unfold dmap
      rw [List.map_cons, List.map_cons]
      congr 1
      simp [hid m, hdis m]
    | false =>
      simp only [Bool.false_eq_true, if_false]
      unfold dmap at ih ⊢
      rw [List.map_cons, List.map_cons, ih]

theorem msgRel_dmap {e : Bool} {a b : List Message} (h : MsgRel e a b) :
    ∃ ext, dmap b = dmap a ++ ext := by
  induction h with
  | same _ msgs => exact ⟨[], by simp⟩
  | post _ msgs msg _ => exact ⟨dmap [msg], by simp [dmap_append]⟩
  | updD _ msgs mid f hf _ =>
    exact ⟨[], by
      rw [dmap_updateFirstMsg msgs mid f (fun m => (hf m).1) (fun m => (hf m).2.1)]
      simp⟩
  | updE msgs mid c t =>
    exact ⟨[], by
      rw [dmap_updateFirstMsg msgs mid
        (fun m => { m with content := c, edited := true, editedAt := some t })
        (fun m => rfl) (fun m => rfl)]
      simp⟩
  | steps _ x y z h1 h2 ih1 ih2 =>
    rcases ih1 with ⟨e1, he1⟩
    rcases ih2 with ⟨e2, he2⟩
    exact ⟨e1 ++ e2, by rw [he2, he1, List.append_assoc]⟩

theorem msgRel_readBy {e : Bool} {a b : List Message} (h : MsgRel e a b) :
    (∀ m ∈ a, m.senderId ∈ m.readBy) → ∀ m ∈ b, m.senderId ∈ m.readBy := by
  induction h with
  | same => exact fun ha => ha
  | post _ msgs msg hmsg =>
    intro ha m hm
    rcases List.mem_append.mp hm with h1 | h1
    · exact ha m h1
    · have hm2 : m = msg := by simpa using h1
      subst hm2
      rw [hmsg.1]
      simp
  | updD _ msgs mid f hf _ =>
    intro ha m hm
    rcases mem_updateFirstMsg hm with h1 | ⟨m0, hfind, rfl⟩
    · exact ha m h1
    · have hm0 : m0 ∈ msgs := List.mem_of_find?_eq_some hfind
      rw [(hf m0).2.2.1]
      exact (hf m0).2.2.2 (ha m0 hm0)
  | updE msgs mid c t =>
    intro ha m hm
    rcases mem_updateFirstMsg hm with h1 | ⟨m0, hfind, rfl⟩
    · exact ha m h1
    · exact ha m0 (List.mem_of_find?_eq_some hfind)
  | steps _ x y z h1 h2 ih1 ih2 => exact fun ha => ih2 (ih1 ha)

theorem msgRel_del {a b : List Message} (h : MsgRel false a b) :
    (∀ m ∈ a, DelContentOK m) → ∀ m ∈ b, DelContentOK m := by
  generalize he : false = e at h
  induction h with
  | same => exact fun ha => ha
  | post _ msgs msg hmsg =>
    intro ha m hm
    rcases List.mem_append.mp hm with h1 | h1
    · exact ha m h1
    · have hm2 : m = msg := by simpa using h1
      subst hm2
      intro hdel
      rw [hmsg.2] at hdel
      simp at hdel
  | updD _ msgs mid f _ hdel =>
    intro ha m hm
    rcases mem_updateFirstMsg hm with h1 | ⟨m0, hfind, rfl⟩
    · exact ha m h1
    · exact hdel m0 (ha m0 (List.mem_of_find?_eq_some hfind))
  | updE msgs mid c t => exact absurd he (by simp)
  | steps _ x y z h1 h2 ih1 ih2 => exact fun ha => ih2 he (ih1 he ha)

theorem markReadFold_msgRel (e : Bool) (sid un rid : String) :
    ∀ (mids : List String) (msgs : List Message) (emits : List Emit),
      MsgRel e msgs (markReadFold sid un rid msgs emits mids).1 := by
  intro mids
  induction mids with
  | nil => intro msgs emits; exact MsgRel.same e msgs
  | cons mid rest ih =>
    intro msgs emits
    unfold markReadFold
    cases hf : msgs.find? (fun m => m.id == mid) with
    | none => exact ih msgs emits
    | some m =>
      by_cases hmem : sid ∈ m.readBy
      · simp only [if_pos hmem]
        exact ih msgs emits
      · simp only [if_neg hmem]
        refine MsgRel.steps e msgs _ _ ?_ (ih _ _)
        exact MsgRel.updD e msgs mid _
          (fun mm => ⟨rfl, rfl, rfl, List.subset_append_left _ _⟩)
          (fun mm hd => hd)

theorem withRoom_cases (s : ServerState) (sid : String)
    (f : ConnState → String → Room → ServerState × List Emit)
    (P : ServerState × List Emit → Prop) (hbase : P (s, []))
    (hsome : ∀ conn rid room, aget s.conns sid = some conn →
      conn.currentRoom = some rid → aget s.rooms rid = some room →
      P (f conn rid room)) : P (withRoom s sid f) := by
  unfold withRoom
  split
  · exact hbase
  · rename_i conn h1
    split
    · exact hbase
    · rename_i rid h2
      split
      · exact hbase
      · rename_i room h3
        exact hsome conn rid room h1 h2 h3

theorem rooms_shape (s : ServerState) (op : Op) :
    RoomsShape s (isEditOp op) (applyOp s op) := by
  cases op with
  | connect sid => exact Or.inl rfl
  | joinRoom sid roomId uid un ua now =>
    show RoomsShape s false (joinRoomH s sid roomId un ua now)
    unfold joinRoomH
    split
    · exact Or.inl rfl
    · dsimp only
      by_cases hex : (aget s.rooms roomId).isSome = true
      · rw [if_pos hex]
        rcases Option.isSome_iff_exists.mp hex with ⟨room, hroom⟩
        rw [hroom]
        exact Or.inr ⟨roomId, _, rfl,
          Or.inl ⟨room, hroom, MsgRel.same false room.messages⟩⟩
      · rw [if_neg hex]
        have hnone := aget_isSome_of_none hex
        rw [aget_mapSet_self]
        exact Or.inr ⟨roomId, _, mapSet_mapSet s.rooms roomId _ _,
          Or.inr ⟨hnone, rfl⟩⟩
  | sendMessage sid content ty rt fd nid now =>
    show RoomsShape s false (sendMessageH s sid content ty rt fd nid now)
    unfold sendMessageH
    refine withRoom_cases s sid _ (RoomsShape s false) (Or.inl rfl) ?_
    intro conn rid room h1 h2 h3
    split
    · exact Or.inl rfl
    · exact Or.inr ⟨rid, _, rfl, Or.inl ⟨room, h3,
        MsgRel.post false room.messages _ ⟨rfl, rfl⟩⟩⟩
  | voiceMessage sid ad du wf nid now =>
    show RoomsShape s false (voiceMessageH s sid ad du wf nid now)
    unfold voiceMessageH
    refine withRoom_cases s sid _ (RoomsShape s false) (Or.inl rfl) ?_
    intro conn rid room h1 h2 h3
    split
    · exact Or.inl rfl
    · exact Or.inr ⟨rid, _, rfl, Or.inl ⟨room, h3,
        MsgRel.post false room.messages _ ⟨rfl, rfl⟩⟩⟩
  | typingStart sid =>
    left
    show (typingStartH s sid).1.rooms = s.rooms
    unfold typingStartH
    split
    · rfl
    · split <;> rfl
  | typingStop sid =>
    left
    show (typingStopH s sid).1.rooms = s.rooms
    unfold typingStopH
    split
    · rfl
    · split <;> rfl
  | addReaction sid mid emoji =>
    show RoomsShape s false (addReactionH s sid mid emoji)
    unfold addReactionH
    refine withRoom_cases s sid _ (RoomsShape s false) (Or.inl rfl) ?_
    intro conn rid room h1 h2 h3
    split
    · exact Or.inl rfl
    · exact Or.inr ⟨rid, _, rfl, Or.inl ⟨room, h3,
        MsgRel.updD false room.messages mid
          (fun m => toggleReaction m sid emoji)
          (fun m => ⟨rfl, rfl, rfl, fun x hx => hx⟩)
          (fun m hd => hd)⟩⟩
  | markRead sid mids =>
    show RoomsShape s false (markReadH s sid mids)
    unfold markReadH
    refine withRoom_cases s sid _ (RoomsShape s false) (Or.inl rfl) ?_
    intro conn rid room h1 h2 h3
    split
    · exact Or.inl rfl
    · rename_i u hu
      exact Or.inr ⟨rid, _, rfl, Or.inl ⟨room, h3,
        markReadFold_msgRel false sid u.name rid mids room.messages []⟩⟩
  | editMessage sid mid nc now =>
    show RoomsShape s true (editMessageH s sid mid nc now)
    unfold editMessageH
    refine withRoom_cases s sid _ (RoomsShape s true) (Or.inl rfl) ?_
    intro conn rid room h1 h2 h3
    split
    · exact Or.inl rfl
    · split
      · exact Or.inr ⟨rid, _, rfl, Or.inl ⟨room, h3,
          MsgRel.updE room.messages mid nc now⟩⟩
      · exact Or.inl rfl
  | deleteMessage sid mid =>
    show RoomsShape s false (deleteMessageH s sid mid)
    unfold deleteMessageH
    refine withRoom_cases s sid _ (RoomsShape s false) (Or.inl rfl) ?_
    intro conn rid room h1 h2 h3
    split
    · exact Or.inl rfl
    · split
      · exact Or.inr ⟨rid, _, rfl, Or.inl ⟨room, h3,
          MsgRel.updD false room.messages mid
            (fun m => { m with deleted := true, content := deletedContent })
            (fun m => ⟨rfl, rfl, rfl, fun x hx => hx⟩)
            (fun m _ _ => Or.inl rfl)⟩⟩
      · exact Or.inl rfl
  | updateSettings sid patch =>
    show RoomsShape s false (updateSettingsH s sid patch)
    unfold updateSettingsH
    refine withRoom_cases s sid _ (RoomsShape s false) (Or.inl rfl) ?_
    intro conn rid room h1 h2 h3
    exact Or.inr ⟨rid, _, rfl, Or.inl ⟨room, h3, MsgRel.same false room.messages⟩⟩
  | kickMember sid targetId =>
    show RoomsShape s false (kickMemberH s sid targetId)
    unfold kickMemberH
    refine withRoom_cases s sid _ (RoomsShape s false) (Or.inl rfl) ?_
    intro conn rid room h1 h2 h3
    split
    · exact Or.inl rfl
    · split
      · exact Or.inr ⟨rid, _, rfl,
          Or.inl ⟨room, h3, MsgRel.same false room.messages⟩⟩
      · exact Or.inl rfl
  | presenceUpdate sid status =>
    show RoomsShape s false (presenceUpdateH s sid status)
    unfold presenceUpdateH
    refine withRoom_cases s sid _ (RoomsShape s false) (Or.inl rfl) ?_
    intro conn rid room h1 h2 h3
    split
    · exact Or.inl rfl
    · exact Or.inr ⟨rid, _, rfl,
        Or.inl ⟨room, h3, MsgRel.same false room.messages⟩⟩
  | joinVoice sid =>
    left
    show (joinVoiceH s sid).1.rooms = s.rooms
    unfold joinVoiceH
    split
    · rfl
    · split <;> rfl
  | leaveVoice sid =>
    left
    show (leaveVoiceH s sid).1.rooms = s.rooms
    unfold leaveVoiceH
    split
    · rfl
    · split <;> rfl
  | canvasStroke sid data =>
    left
    show (canvasStrokeH s sid data).1.rooms = s.rooms
    unfold canvasStrokeH
    split
    · rfl
    · split <;> rfl
  | handshakeInit sid pk =>
    left
    show (handshakeInitH s sid pk).1.rooms = s.rooms
    unfold handshakeInitH
    split
    · rfl
    · split <;> rfl
  | handshakeResponse sid tid ct ek => exact Or.inl rfl
  | voiceSignal sid tid sig => exact Or.inl rfl
  | fireTimer rid mid =>
    show RoomsShape s false (fireTimerH s rid mid)
    unfold fireTimerH
    split
    · exact Or.inl rfl
    · rename_i room h3
      split
      · exact Or.inr ⟨rid, _, rfl, Or.inl ⟨room, h3,
          MsgRel.updD false room.messages mid
            (fun m => { m with deleted := true, content := disappearedContent })
            (fun m => ⟨rfl, rfl, rfl, fun x hx => hx⟩)
            (fun m _ _ => Or.inr rfl)⟩⟩
      · exact Or.inl rfl
  | disconnect sid =>
    show RoomsShape s false (disconnectH s sid)
    have hb : RoomsShape s false (disconnectRoomPart s sid) := by
      unfold disconnectRoomPart
      split
      · exact Or.inl rfl
      · split
        · split
          · exact Or.inl rfl
          · rename_i room h3
            exact Or.inr ⟨_, _, rfl,
              Or.inl ⟨room, h3, MsgRel.same false room.messages⟩⟩
        · exact Or.inl rfl
    rcases hb with h | ⟨rid0, room1, heq, hrest⟩
    · exact Or.inl h
    · exact Or.inr ⟨rid0, room1, heq, hrest⟩

/-- C1 counterexample: a local snapshot whose sole message has
`disappearAt = 5` (elapsed at any load time at or after 5) and
`deleted = false` is rehydrated by `loadRooms` with the message still
undeleted and its original content, and with no disappearance timer
scheduled — the redaction and rescheduling the claim demands do not
happen. -/
theorem loadRooms_skips_expired_redaction_cex :
    c1Msg.disappearAt = some 5 ∧ c1Msg.deleted = false ∧
    (aget (loadRoomsLocalState [c1RoomData] initialState).rooms "r1").map
      (fun room => room.messages.map (fun m => (m.deleted, m.content))) =
      some [(false, "x")] ∧
    (loadRoomsLocalState [c1RoomData] initialState).timers = [] := by
  decide

/-- C1 (amended): `loadRooms` performs no in-line redaction and reschedules
no timers.  The local variant rehydrates each room's message log verbatim
(deleted flags and contents untouched) and leaves the pending-timer set
unchanged; the Firebase variant also leaves the timers unchanged and, in
addition, resets every hydrated message's `deleted` and `edited` flags to
`false` while keeping its content and `disappearAt` as persisted. -/
theorem loadRooms_no_redaction_no_reschedule :
    (∀ rd : LocalRoomData, (loadOneLocal rd).messages = rd.messages) ∧
    (∀ (data : List LocalRoomData) (s : ServerState),
      (loadRoomsLocalState data s).timers = s.timers) ∧
    (∀ (docs : List FirestoreRoomData) (s : ServerState),
      (loadRoomsFirebaseState docs s).timers = s.timers) ∧
    (∀ m : FirestoreMessage,
      (hydrateMessage m).deleted = false ∧ (hydrateMessage m).edited = false ∧
      (hydrateMessage m).content = m.content ∧
      (hydrateMessage m).disappearAt = m.disappearAt) :=
  ⟨fun _ => rfl, fun _ _ => rfl, fun _ _ => rfl,
   fun _ => ⟨rfl, rfl, rfl, rfl⟩⟩

/-- C2 counterexample: two sessions join room `r2` supplying the same
persistent `userId` (`"u"`); after the second join the room still holds the
first session's Member entry, so the room has two Members for one
persistent user — the claimed removal of the prior entry does not
happen. -/
theorem joinRoom_duplicate_persistent_uid_cex :
    (aget (applyOps initialState c2Trace).rooms "r2").map
      (fun room => room.members.map (fun p => p.1)) = some ["s1", "s2"] := by
  decide

/-- C2 (amended): the server ignores the client-supplied persistent
`userId` entirely — `join-room` behaves identically whatever `userId` the
payload carries — and rooms key Members solely by session id: a re-join
with the same session id replaces the existing entry (the member map's key
set is unchanged), while a prior Member keyed by a stale session id is not
removed. -/
theorem joinRoom_ignores_persistent_uid :
    (∀ (s : ServerState)
      (sid roomId uid1 uid2 userName userAvatar : String) (now : Nat),
      applyOp s (Op.joinRoom sid roomId uid1 userName userAvatar now) =
        applyOp s (Op.joinRoom sid roomId uid2 userName userAvatar now)) ∧
    (∀ {α : Type} (m : List (String × α)) (k : String) (v : α),
      (aget m k).isSome = true →
      (mapSet m k v).map (fun p => p.1) = m.map (fun p => p.1)) := by
  constructor
  · intro s sid roomId uid1 uid2 userName userAvatar now
    rfl
  · intro α m k v hp
    rw [mapSet_present m k v hp, List.map_map]
    apply List.map_congr_left
    intro q _
    cases hq : q.1 == k with
    | true =>
      have hk : q.1 = k := by simpa using hq
      simp [Function.comp, hq, hk]
    | false => simp [Function.comp, hq]

/-- C2 witness: replacing the existing entry for key `s1` keeps the key
set of the map unchanged. -/
theorem joinRoom_ignores_persistent_uid_witness :
    (mapSet [("s1", 0)] "s1" 7).map (fun p => p.1) =
      [("s1", (0 : Nat))].map (fun p => p.1) :=
  joinRoom_ignores_persistent_uid.2 [("s1", 0)] "s1" 7 (by decide)

/-- C5 counterexample: sessions `a5` and `b5` sit in different rooms
(`rA` holds only `a5`), yet a `voice-signal` and a `handshake-response`
from `a5` targeting `b5` are both relayed to `b5` — the claimed
authorization drop does not happen. -/
theorem targeted_relay_cross_room_cex :
    (aget c5State.rooms "rA").map
      (fun room => room.members.map (fun p => p.1)) = some ["a5"] ∧
    (aget c5State.conns "a5").map (fun c => c.currentRoom) =
      some (some "rA") ∧
    (aget c5State.conns "b5").map (fun c => c.currentRoom) =
      some (some "rB") ∧
    (applyOp c5State (Op.voiceSignal "a5" "b5" "sig")).2 =
      [Emit.toSocket "b5" (Payload.voiceSignal "a5" "sig")] ∧
    (applyOp c5State (Op.handshakeResponse "a5" "b5" "ct" "ek")).2 =
      [Emit.toSocket "b5" (Payload.handshakeComplete "ct" "ek")] := by
  decide

/-- C5 (amended): `voice-signal` and `handshake-response` are relayed to
`target_id` unconditionally — no membership check, no room check, not even
a `currentRoom` check — with no state change; the only way a frame goes
undelivered is that no socket with that id exists. -/
theorem targeted_relay_unconditional :
    (∀ (s : ServerState) (sid targetId signal : String),
      applyOp s (Op.voiceSignal sid targetId signal) =
        (s, [Emit.toSocket targetId (Payload.voiceSignal sid signal)])) ∧
    (∀ (s : ServerState) (sid targetId ciphertext encryptedKey : String),
      applyOp s (Op.handshakeResponse sid targetId ciphertext encryptedKey) =
        (s, [Emit.toSocket targetId
              (Payload.handshakeComplete ciphertext encryptedKey)])) :=
  ⟨fun _ _ _ _ => rfl, fun _ _ _ _ _ => rfl⟩

/-- C4 counterexample: Bob (`b4`) is evicted from room `r4` (the members
list afterwards holds only `a4`), his closure still points at `r4`, and his
subsequent `send-message` appends his message to the room log and emits a
broadcast — it is not dropped. -/
theorem evicted_sender_post_cex :
    (aget c4State.rooms "r4").map
      (fun room => room.members.map (fun p => p.1)) = some ["a4"] ∧
    (aget c4State.conns "b4").map (fun c => c.currentRoom) =
      some (some "r4") ∧
    (aget (applyOp c4State c4Send).1.rooms "r4").map
      (fun room => room.messages.map (fun m => m.senderId)) = some ["b4"] ∧
    (applyOp c4State c4Send).2.length = 1 := by
  decide

/-- C4 (amended): `send-message` is dropped exactly when the session has no
current room or the current room id is absent from the rooms map; whether
the session is still a member of the room is never consulted, so any
session whose closure points at an existing room — an evicted one
included — appends a message and triggers the broadcast. -/
theorem sendMessage_no_membership_check :
    (∀ (s : ServerState) (sid content : String) (ty replyTo : Option String)
      (fd : Option FileData) (newId : String) (now : Nat) (conn : ConnState)
      (rid : String) (room : Room) (u : UserObj),
      aget s.conns sid = some conn → conn.currentRoom = some rid →
      aget s.rooms rid = some room → conn.currentUser = some u →
      ∃ msg : Message, msg.senderId = sid ∧
        aget (applyOp s
          (Op.sendMessage sid content ty replyTo fd newId now)).1.rooms rid =
          some { room with messages := room.messages ++ [msg] } ∧
        (applyOp s (Op.sendMessage sid content ty replyTo fd newId now)).2 =
          [Emit.toRoom rid (Payload.message msg)]) ∧
    (∀ (s : ServerState) (sid content : String) (ty replyTo : Option String)
      (fd : Option FileData) (newId : String) (now : Nat) (conn : ConnState),
      aget s.conns sid = some conn → conn.currentRoom = none →
      applyOp s (Op.sendMessage sid content ty replyTo fd newId now) =
        (s, [])) := by
  constructor
  · intro s sid content ty replyTo fd newId now conn rid room u h1 h2 h3 h4
    simp only [applyOp, sendMessageH, withRoom, h1, h2, h3, h4]
    refine ⟨mkMessage newId now
      { roomId := rid, senderId := sid, senderName := u.name,
        senderAvatar := u.avatar, content := content,
        type := match ty with
                | none => some "text"
                | some t => if t == "" then some "text" else some t,
        replyTo := replyTo,
        disappearAt :=
          if disappearTruthy room.settings.disappearingMessages then
            some (now + room.settings.disappearingMessages.getD 0)
          else none,
        fileData := fd }, rfl, ?_, ?_⟩
    · rw [aget_mapSet_self]
    · rfl
  · intro s sid content ty replyTo fd newId now conn h1 h2
    simp only [applyOp, sendMessageH, withRoom, h1, h2]

/-- C4 witness: in `w4State` session `sw4` points at room `rw4` without
being one of its members, and its post still lands in the log. -/
theorem sendMessage_no_membership_check_witness :
    ∃ msg : Message, msg.senderId = "sw4" ∧
      aget (applyOp w4State
        (Op.sendMessage "sw4" "c" none none none "mw4" 1)).1.rooms "rw4" =
        some { (newRoom "rw4" none "W" 0) with
               messages := (newRoom "rw4" none "W" 0).messages ++ [msg] } ∧
      (applyOp w4State (Op.sendMessage "sw4" "c" none none none "mw4" 1)).2 =
        [Emit.toRoom "rw4" (Payload.message msg)] :=
  sendMessage_no_membership_check.1 w4State "sw4" "c" none none none "mw4" 1
    (wConn "rw4" (wUser "sw4" "W")) "rw4" (newRoom "rw4" none "W" 0)
    (wUser "sw4" "W") rfl rfl rfl rfl

/-- C6 counterexample: message `m6` is deleted (its content is the
canonical tombstone string), yet the sender's subsequent `edit-message`
rewrites its content, sets `edited` and `editedAt`, and emits
`message-edited` — the claimed no-op on deleted messages does not
happen. -/
theorem edit_deleted_message_cex :
    (aget c6State.rooms "r6").map
      (fun room => room.messages.map (fun m => (m.deleted, m.content))) =
      some [(true, deletedContent)] ∧
    (aget (applyOp c6State c6Edit).1.rooms "r6").map
      (fun room => room.messages.map
        (fun m => (m.deleted, m.content, m.edited, m.editedAt))) =
      some [(true, "rewritten", true, some 7)] ∧
    (applyOp c6State c6Edit).2 =
      [Emit.toRoom "r6" (Payload.messageEdited "m6" "rewritten" 7)] := by
  decide

/-- C6 (amended): `edit-message` mutates the targeted message exactly when
the session has a current room that exists and the first message with the
requested id exists with `senderId` equal to the session — the `deleted`
flag is never consulted, so an edit of a deleted message by its sender
mutates it and broadcasts; an edit of a non-existent message, or by a
non-sender, is a silent no-op. -/
theorem editMessage_conditions :
    (∀ (s : ServerState) (sid messageId newContent : String) (now : Nat)
      (conn : ConnState) (rid : String) (room : Room) (msg : Message),
      aget s.conns sid = some conn → conn.currentRoom = some rid →
      aget s.rooms rid = some room →
      room.messages.find? (fun m => m.id == messageId) = some msg →
      msg.senderId = sid →
      aget (applyOp s
        (Op.editMessage sid messageId newContent now)).1.rooms rid =
        some { room with messages := (updateFirstMsg room.messages messageId
                 (fun m => { m with content := newContent, edited := true,
                                    editedAt := some now })) } ∧
      (applyOp s (Op.editMessage sid messageId newContent now)).2 =
        [Emit.toRoom rid (Payload.messageEdited messageId newContent now)]) ∧
    (∀ (s : ServerState) (sid messageId newContent : String) (now : Nat)
      (conn : ConnState) (rid : String) (room : Room),
      aget s.conns sid = some conn → conn.currentRoom = some rid →
      aget s.rooms rid = some room →
      room.messages.find? (fun m => m.id == messageId) = none →
      applyOp s (Op.editMessage sid messageId newContent now) = (s, [])) ∧
    (∀ (s : ServerState) (sid messageId newContent : String) (now : Nat)
      (conn : ConnState) (rid : String) (room : Room) (msg : Message),
      aget s.conns sid = some conn → conn.currentRoom = some rid →
      aget s.rooms rid = some room →
      room.messages.find? (fun m => m.id == messageId) = some msg →
      ¬(msg.senderId = sid) →
      applyOp s (Op.editMessage sid messageId newContent now) = (s, [])) := by
  refine ⟨?_, ?_, ?_⟩
  · intro s sid messageId newContent now conn rid room msg h1 h2 h3 h4 h5
    have hb : (msg.senderId == sid) = true := beq_iff_eq.mpr h5
    simp only [applyOp, editMessageH, withRoom, h1, h2, h3, h4, hb, if_true]
    refine ⟨?_, ?_⟩ <;> first
      | trivial
      | rw [aget_mapSet_self]
  · intro s sid messageId newContent now conn rid room h1 h2 h3 h4
    simp only [applyOp, editMessageH, withRoom, h1, h2, h3, h4]
  · intro s sid messageId newContent now conn rid room msg h1 h2 h3 h4 h5
    have hb : (msg.senderId == sid) = false := beq_eq_false_iff_ne.mpr h5
    simp only [applyOp, editMessageH, withRoom, h1, h2, h3, h4, hb,
      Bool.false_eq_true, if_false]

/-- C6 witness: in `w6State` the sender edits its already-deleted message
`mw6`, which is mutated in place with a broadcast. -/
theorem editMessage_conditions_witness :
    aget (applyOp w6State
      (Op.editMessage "sw6" "mw6" "new" 9)).1.rooms "rw6" =
      some { w6Room with messages := (updateFirstMsg w6Room.messages "mw6"
               (fun m => { m with content := "new", edited := true,
                                  editedAt := some 9 })) } ∧
    (applyOp w6State (Op.editMessage "sw6" "mw6" "new" 9)).2 =
      [Emit.toRoom "rw6" (Payload.messageEdited "mw6" "new" 9)] :=
  editMessage_conditions.1 w6State "sw6" "mw6" "new" 9
    (wConn "rw6" (wUser "sw6" "W")) "rw6" w6Room w6Msg rfl rfl rfl
    (by decide) rfl

/-- C8 counterexample: `c8` joined room `r8` under the creator's display
name and was then evicted, so it is no longer a member (the members are
`a8` and `b8`) while its closure still points at `r8`; its `kick-member`
against `b8` nevertheless succeeds — `b8` is removed and receives
`kicked` — refuting the claim that a successful evict requires the
requester to be a room member. -/
theorem kick_by_nonmember_cex :
    (aget c8State.rooms "r8").map
      (fun room => room.members.map (fun p => p.1)) = some ["a8", "b8"] ∧
    (aget c8State.conns "c8").map (fun c => c.currentRoom) =
      some (some "r8") ∧
    (aget (applyOp c8State c8Kick).1.rooms "r8").map
      (fun room => room.members.map (fun p => p.1)) = some ["a8"] ∧
    (applyOp c8State c8Kick).2.length = 2 ∧
    (applyOp c8State c8Kick).2.head? =
      some (Emit.toSocket "b8" (Payload.kicked "Room r8")) := by
  decide

/-- C8 (amended): evict succeeds exactly when the requester has a current
room that exists and the requester's display name equals the room's
`createdBy` — room membership of the requester is not required.  On
success the target's Member entry is removed, the target (when connected)
receives `kicked` and leaves the room channel, `user-left` with the
target's id and the refreshed members list is emitted to the room, and the
connected-socket set is unchanged (the target is not disconnected).  On a
name mismatch nothing happens. -/
theorem kick_creator_name_only :
    (∀ (s : ServerState) (sid targetId : String) (conn : ConnState)
      (rid : String) (room : Room) (u : UserObj),
      aget s.conns sid = some conn → conn.currentRoom = some rid →
      aget s.rooms rid = some room → conn.currentUser = some u →
      u.name = room.createdBy → targetId ∈ s.connected →
      (applyOp s (Op.kickMember sid targetId)).1.rooms =
        mapSet s.rooms rid
          { room with members := mapDelete room.members targetId } ∧
      (applyOp s (Op.kickMember sid targetId)).1.channels =
        channelLeave s.channels rid targetId ∧
      (applyOp s (Op.kickMember sid targetId)).1.connected = s.connected ∧
      (applyOp s (Op.kickMember sid targetId)).2 =
        [Emit.toSocket targetId (Payload.kicked room.name),
         Emit.toRoom rid (Payload.userLeftKick targetId
           (mapDelete room.members targetId))]) ∧
    (∀ (s : ServerState) (sid targetId : String) (conn : ConnState)
      (rid : String) (room : Room) (u : UserObj),
      aget s.conns sid = some conn → conn.currentRoom = some rid →
      aget s.rooms rid = some room → conn.currentUser = some u →
      ¬(u.name = room.createdBy) →
      applyOp s (Op.kickMember sid targetId) = (s, [])) := by
  constructor
  · intro s sid targetId conn rid room u h1 h2 h3 h4 h5 h6
    have hb : (room.createdBy == u.name) = true := beq_iff_eq.mpr h5.symm
    simp only [applyOp, kickMemberH, withRoom, h1, h2, h3, h4, hb, if_true]
    simp only [h6, if_true]
    refine ⟨?_, ?_, ?_, ?_⟩ <;> trivial
  · intro s sid targetId conn rid room u h1 h2 h3 h4 h5
    have hb : (room.createdBy == u.name) = false :=
      beq_eq_false_iff_ne.mpr (fun hh => h5 hh.symm)
    simp only [applyOp, kickMemberH, withRoom, h1, h2, h3, h4, hb,
      Bool.false_eq_true, if_false]

/-- C8 witness: in `w8State` the creator-named `sw8` evicts the connected
`tw8` (removal, `kicked`, channel leave, connection kept), while the
differently named `zw8` cannot evict anybody. -/
theorem kick_creator_name_only_witness :
    ((applyOp w8State (Op.kickMember "sw8" "tw8")).1.rooms =
        mapSet w8State.rooms "rw8"
          { w8Room with members := mapDelete w8Room.members "tw8" } ∧
      (applyOp w8State (Op.kickMember "sw8" "tw8")).1.channels =
        channelLeave w8State.channels "rw8" "tw8" ∧
      (applyOp w8State (Op.kickMember "sw8" "tw8")).1.connected =
        w8State.connected ∧
      (applyOp w8State (Op.kickMember "sw8" "tw8")).2 =
        [Emit.toSocket "tw8" (Payload.kicked w8Room.name),
         Emit.toRoom "rw8" (Payload.userLeftKick "tw8"
           (mapDelete w8Room.members "tw8"))]) ∧
    applyOp w8State (Op.kickMember "zw8" "tw8") = (w8State, []) :=
  ⟨kick_creator_name_only.1 w8State "sw8" "tw8"
      (wConn "rw8" (wUser "sw8" "W")) "rw8" w8Room (wUser "sw8" "W")
      rfl rfl rfl rfl rfl (by decide),
   kick_creator_name_only.2 w8State "zw8" "tw8"
      (wConn "rw8" (wUser "zw8" "Z")) "rw8" w8Room (wUser "zw8" "Z")
      rfl rfl rfl rfl (by decide)⟩

theorem delInv_room {s : ServerState} (hInv : DelInv s) {rid : String}
    {room : Room} (h : aget s.rooms rid = some room) :
    ∀ m ∈ room.messages, DelContentOK m := by
  rcases aget_mem h with ⟨q, hq, hq2⟩
  intro m hm
  exact hInv q hq m (by rw [hq2]; exact hm)

theorem readInv_room {s : ServerState} (hInv : ReadByInv s) {rid : String}
    {room : Room} (h : aget s.rooms rid = some room) :
    ∀ m ∈ room.messages, m.senderId ∈ m.readBy := by
  rcases aget_mem h with ⟨q, hq, hq2⟩
  intro m hm
  exact hInv q hq m (by rw [hq2]; exact hm)

theorem delInv_of_shape {s : ServerState} {r : ServerState × List Emit}
    (hInv : DelInv s) (hs : RoomsShape s false r) : DelInv r.1 := by
  rcases hs with h | ⟨rid0, room1, heq, hrest⟩
  · intro p hp
    rw [h] at hp
    exact hInv p hp
  · intro p hp
    rw [heq] at hp
    rcases mem_mapSet hp with rfl | ⟨hpm, _⟩
    · rcases hrest with ⟨room0, hag, hrel⟩ | ⟨_, hempty⟩
      · exact fun m hm => msgRel_del hrel (delInv_room hInv hag) m hm
      · intro m hm
        rw [hempty] at hm
        exact absurd hm (List.not_mem_nil m)
    · exact hInv p hpm

theorem readInv_of_shape {s : ServerState} {r : ServerState × List Emit}
    {e : Bool} (hInv : ReadByInv s) (hs : RoomsShape s e r) :
    ReadByInv r.1 := by
  rcases hs with h | ⟨rid0, room1, heq, hrest⟩
  · intro p hp
    rw [h] at hp
    exact hInv p hp
  · intro p hp
    rw [heq] at hp
    rcases mem_mapSet hp with rfl | ⟨hpm, _⟩
    · rcases hrest with ⟨room0, hag, hrel⟩ | ⟨_, hempty⟩
      · exact fun m hm => msgRel_readBy hrel (readInv_room hInv hag) m hm
      · intro m hm
        rw [hempty] at hm
        exact absurd hm (List.not_mem_nil m)
    · exact hInv p hpm

/-- C3 counterexample: message `m3` is deleted by its sender (content
becomes the canonical tombstone string) and then edited by the same
sender; afterwards `deleted` is still `true` while the content is the
arbitrary string `"hacked"`, which is neither canonical string — the
claimed invariant is violated by edit-after-delete. -/
theorem tombstone_content_cex :
    (aget (applyOps initialState c3Trace).rooms "r3").map
      (fun room => room.messages.map (fun m => (m.deleted, m.content))) =
      some [(true, "hacked")] ∧
    ¬("hacked" = deletedContent) ∧ ¬("hacked" = disappearedContent) := by
  decide

/-- C3 (amended): the tombstone invariant — a deleted message carries one
of the two canonical redacted strings — is preserved by every operation
except an `edit-message` that reaches a deleted message: the edit handler
never tests `deleted`, so the invariant holds provided each edit's target
(when it exists and the sender matches) is undeleted, and only such edits
can break it. -/
theorem tombstone_invariant_preserved (s : ServerState) (op : Op)
    (hInv : DelInv s) (hSafe : editSafeB s op = true) :
    DelInv (applyOp s op).1 := by
  cases op
  case editMessage sid mid nc now =>
    show DelInv (editMessageH s sid mid nc now).1
    unfold editMessageH
    refine withRoom_cases s sid _ (fun r => DelInv r.1) hInv ?_
    intro conn rid room h1 h2 h3
    split
    · exact hInv
    · rename_i msg hfind
      split
      · rename_i hsender
        have hdel : msg.deleted = false := by
          unfold editSafeB at hSafe
          simp only [h1, h2, h3, hfind, hsender] at hSafe
          simpa using hSafe
        intro p hp
        rcases mem_mapSet hp with rfl | ⟨hpm, _⟩
        · intro m hm
          rcases mem_updateFirstMsg hm with hm1 | ⟨m0, hfind2, rfl⟩
          · exact delInv_room hInv h3 m hm1
          · rw [hfind] at hfind2
            injection hfind2 with he
            subst he
            intro hdel2
            have : msg.deleted = true := hdel2
            rw [hdel] at this
            exact absurd this (by simp)
        · exact hInv p hpm
      · exact hInv
  all_goals exact delInv_of_shape hInv (rooms_shape s _)

/-- C3 witness: the invariant holds of the concrete populated state
`c9State` and is carried through a `delete-message`. -/
theorem tombstone_invariant_preserved_witness :
    DelInv (applyOp c9State (Op.deleteMessage "x9" "m9")).1 :=
  tombstone_invariant_preserved c9State (Op.deleteMessage "x9" "m9")
    (by unfold DelInv DelContentOK; decide) (by decide)

/-- C7 counterexample: disappearing messages are enabled at 5000 ms in
room `r7`, yet the voice message posted afterwards carries
`disappearAt = none` — refuting the claim that `disappear_at` is non-null
for every posted kind whenever the setting is enabled. -/
theorem voice_message_no_disappear_cex :
    (aget c7State.rooms "r7").map
      (fun room => (room.settings.disappearingMessages,
        room.messages.map (fun m => m.disappearAt))) =
      some (some 5000, [none]) := by
  decide

/-- C7 (amended): for `send-message` posts, `disappearAt` equals
`now + duration` exactly when the room's `disappearingMessages` setting is
truthy at post time and is `none` otherwise; `voice-message` posts always
carry `disappearAt = none` regardless of the setting; and the value is
fixed at post time — every operation extends each room's
(id, disappearAt) projection on the right, never rewriting an existing
entry. -/
theorem disappearAt_fixed_at_post :
    (∀ (s : ServerState) (sid content : String) (ty replyTo : Option String)
      (fd : Option FileData) (newId : String) (now : Nat) (conn : ConnState)
      (rid : String) (room : Room) (u : UserObj),
      aget s.conns sid = some conn → conn.currentRoom = some rid →
      aget s.rooms rid = some room → conn.currentUser = some u →
      ∃ msg : Message,
        aget (applyOp s
          (Op.sendMessage sid content ty replyTo fd newId now)).1.rooms rid =
          some { room with messages := room.messages ++ [msg] } ∧
        msg.disappearAt =
          (if disappearTruthy room.settings.disappearingMessages then
            some (now + room.settings.disappearingMessages.getD 0)
          else none)) ∧
    (∀ (s : ServerState) (sid audioData : String) (duration : Nat)
      (waveform newId : String) (now : Nat) (conn : ConnState)
      (rid : String) (room : Room) (u : UserObj),
      aget s.conns sid = some conn → conn.currentRoom = some rid →
      aget s.rooms rid = some room → conn.currentUser = some u →
      ∃ msg : Message,
        aget (applyOp s
          (Op.voiceMessage sid audioData duration waveform newId now)).1.rooms rid =
          some { room with messages := room.messages ++ [msg] } ∧
        msg.disappearAt = none) ∧
    (∀ (s : ServerState) (op : Op) (rid : String) (room room2 : Room),
      aget s.rooms rid = some room →
      aget (applyOp s op).1.rooms rid = some room2 →
      ∃ ext, dmap room2.messages = dmap room.messages ++ ext) := by
  refine ⟨?_, ?_, ?_⟩
  · intro s sid content ty replyTo fd newId now conn rid room u h1 h2 h3 h4
    simp only [applyOp, sendMessageH, withRoom, h1, h2, h3, h4]
    refine ⟨mkMessage newId now
      { roomId := rid, senderId := sid, senderName := u.name,
        senderAvatar := u.avatar, content := content,
        type := match ty with
                | none => some "text"
                | some t => if t == "" then some "text" else some t,
        replyTo := replyTo,
        disappearAt :=
          if disappearTruthy room.settings.disappearingMessages then
            some (now + room.settings.disappearingMessages.getD 0)
          else none,
        fileData := fd }, ?_, rfl⟩
    rw [aget_mapSet_self]
  · intro s sid audioData duration waveform newId now conn rid room u h1 h2 h3 h4
    simp only [applyOp, voiceMessageH, withRoom, h1, h2, h3, h4]
    refine ⟨mkMessage newId now
      { roomId := rid, senderId := sid, senderName := u.name,
        senderAvatar := u.avatar, content := "Voice message",
        type := some "voice", replyTo := none, disappearAt := none,
        fileData := some { audioData := audioData, duration := duration,
                           waveform := waveform } }, ?_, rfl⟩
    rw [aget_mapSet_self]
  · intro s op rid room room2 h h2
    rcases rooms_shape s op with hsame | ⟨rid0, room1, heq, hrest⟩
    · rw [hsame, h] at h2
      injection h2 with he
      subst he
      exact ⟨[], by simp⟩
    · rw [heq] at h2
      by_cases hr : rid = rid0
      · subst hr
        rw [aget_mapSet_self] at h2
        injection h2 with he
        subst he
        rcases hrest with ⟨room0, hag, hrel⟩ | ⟨hnone, _⟩
        · rw [h] at hag
          injection hag with he2
          subst he2
          exact msgRel_dmap hrel
        · rw [hnone] at h
          exact absurd h (by simp)
      · rw [aget_mapSet_ne s.rooms rid0 rid room1 hr, h] at h2
        injection h2 with he
        subst he
        exact ⟨[], by simp⟩

/-- C7 witness: in `w7State` (setting enabled at 4 ms) a post at time 10
lands with the stamp computed from the setting, and the invariant-carrying
third conjunct applies to a concrete `update-settings` operation. -/
theorem disappearAt_fixed_at_post_witness :
    (∃ msg : Message,
      aget (applyOp w7State
        (Op.sendMessage "sw7" "c" none none none "mw7" 10)).1.rooms "rw7" =
        some { w7Room with messages := w7Room.messages ++ [msg] } ∧
      msg.disappearAt =
        (if disappearTruthy w7Room.settings.disappearingMessages then
          some (10 + w7Room.settings.disappearingMessages.getD 0)
        else none)) ∧
    (∃ ext, dmap w7Room.messages = dmap w7Room.messages ++ ext) :=
  ⟨disappearAt_fixed_at_post.1 w7State "sw7" "c" none none none "mw7" 10
      (wConn "rw7" (wUser "sw7" "W")) "rw7" w7Room (wUser "sw7" "W")
      rfl rfl rfl rfl,
   disappearAt_fixed_at_post.2.2 w7State (Op.typingStart "sw7") "rw7"
      w7Room w7Room rfl rfl⟩


theorem markReadFold_skip (sid un rid : String) (msgs : List Message)
    (emits : List Emit) (mid : String) (msg : Message)
    (hfind : msgs.find? (fun m => m.id == mid) = some msg)
    (hmem : sid ∈ msg.readBy) :
    markReadFold sid un rid msgs emits [mid] = (msgs, emits) := by
  unfold markReadFold
  split
  · rfl
  · rename_i m hsome
    rw [hfind] at hsome
    injection hsome with he
    subst he
    rw [if_pos hmem]
    rfl

/-- C10: every freshly constructed `Message` has `readBy` initialized to
exactly the sender's session id; every operation preserves the invariant
that a stored message's sender is in its `readBy` list; and therefore a
`mark-read` from the sender targeting its own message changes nothing and
emits no `message-read` event. -/
theorem readBy_sender_membership :
    (∀ (newId : String) (now : Nat) (data : MessageData),
      (mkMessage newId now data).readBy = [data.senderId]) ∧
    (∀ (s : ServerState) (op : Op),
      ReadByInv s → ReadByInv (applyOp s op).1) ∧
    (∀ (s : ServerState) (sid mid : String) (conn : ConnState)
      (rid : String) (room : Room) (msg : Message),
      ReadByInv s → KeysNodup s.rooms →
      aget s.conns sid = some conn → conn.currentRoom = some rid →
      aget s.rooms rid = some room →
      room.messages.find? (fun m => m.id == mid) = some msg →
      msg.senderId = sid →
      applyOp s (Op.markRead sid [mid]) = (s, [])) := by
  refine ⟨fun _ _ _ => rfl, ?_, ?_⟩
  · intro s op hInv
    exact readInv_of_shape hInv (rooms_shape s op)
  · intro s sid mid conn rid room msg hInv hnodup h1 h2 h3 hfind hsender
    have hmem : sid ∈ msg.readBy := by
      rw [← hsender]
      exact readInv_room hInv h3 msg (List.mem_of_find?_eq_some hfind)
    simp only [applyOp, markReadH, withRoom, h1, h2, h3]
    cases h4 : conn.currentUser with
    | none => rfl
    | some u =>
      simp only [markReadFold_skip sid u.name rid room.messages [] mid msg
        hfind hmem]
      have hroom : ({ room with messages := room.messages } : Room) = room :=
        rfl
      rw [hroom, mapSet_eq_self hnodup h3]

/-- C10 witness: the constructor seeds `readBy` with the sender, and in
`w10State` the sender's `mark-read` of its own message is a silent
no-op. -/
theorem readBy_sender_membership_witness :
    (mkMessage "mwX" 0
      { roomId := "rwX", senderId := "swX", senderName := "W",
        senderAvatar := "", content := "c", type := none, replyTo := none,
        disappearAt := none, fileData := none }).readBy = ["swX"] ∧
    applyOp w10State (Op.markRead "swX" ["mwX"]) = (w10State, []) :=
  ⟨readBy_sender_membership.1 "mwX" 0 _,
   readBy_sender_membership.2.2 w10State "swX" "mwX"
      (wConn "rwX" (wUser "swX" "W")) "rwX" w10Room w10Msg
      (by unfold ReadByInv; decide) (by unfold KeysNodup; decide)
      rfl rfl rfl (by decide) rfl⟩


theorem aget_mapDelete_self {α : Type} (m : List (String × α)) (k : String) :
    aget (mapDelete m k) k = none := by
  unfold mapDelete
  induction m with
  | nil => rfl
  | cons p t ih =>
    rw [List.filter_cons]
    cases h : p.1 == k with
    | true => simpa [h] using ih
    | false =>
      simp only [h, Bool.not_false, if_true]
      rw [aget_cons, h]
      simpa using ih

theorem aget_mapDelete_ne {α : Type} (m : List (String × α)) (k k2 : String)
    (hne : ¬(k2 = k)) : aget (mapDelete m k) k2 = aget m k2 := by
  unfold mapDelete
  induction m with
  | nil => rfl
  | cons p t ih =>
    rw [List.filter_cons]
    cases h : p.1 == k with
    | true =>
      have hk : p.1 = k := by simpa using h
      have h2 : (p.1 == k2) = false :=
        beq_eq_false_iff_ne.mpr (by rw [hk]; exact fun hh => hne hh.symm)
      simp only [h, Bool.not_true, if_false]
      rw [aget_cons, h2]
      simpa using ih
    | false =>
      simp only [h, Bool.not_false, if_true]
      rw [aget_cons, aget_cons]
      cases h2 : p.1 == k2 with
      | true => rfl
      | false =>
        simp only [Bool.false_eq_true, if_false]
        exact ih

theorem toggle_reactions_none (m2 : Message) (sid e : String)
    (hg : aget m2.reactions e = none) :
    (toggleReaction m2 sid e).reactions = mapSet m2.reactions e [sid] := by
  simp [toggleReaction, hg, aget_mapSet_self, mapSet_mapSet]

theorem toggle_reactions_mem_empty (m2 : Message) (sid e : String)
    (lst : List String) (hg : aget m2.reactions e = some lst)
    (hm : sid ∈ lst) (he : lst.erase sid = []) :
    (toggleReaction m2 sid e).reactions = mapDelete m2.reactions e := by
  have hbe : (lst.erase sid == ([] : List String)) = true := by simp [he]
  simp [toggleReaction, hg, hm, hbe]

theorem toggle_reactions_mem_rest (m2 : Message) (sid e : String)
    (lst : List String) (hg : aget m2.reactions e = some lst)
    (hm : sid ∈ lst) (he : ¬(lst.erase sid = [])) :
    (toggleReaction m2 sid e).reactions =
      mapSet m2.reactions e (lst.erase sid) := by
  have hbe : (lst.erase sid == ([] : List String)) = false :=
    beq_eq_false_iff_ne.mpr he
  simp [toggleReaction, hg, hm, hbe]

theorem toggle_reactions_notmem (m2 : Message) (sid e : String)
    (lst : List String) (hg : aget m2.reactions e = some lst)
    (hm : ¬(sid ∈ lst)) :
    (toggleReaction m2 sid e).reactions =
      mapSet m2.reactions e (lst ++ [sid]) := by
  simp [toggleReaction, hg, hm]

theorem toggle_toggle_bucket (msg : Message) (sid emoji : String)
    (hwf : ReactWF msg) :
    (∀ x, x ∈ ((aget (toggleReaction (toggleReaction msg sid emoji) sid
          emoji).reactions emoji).getD []) ↔
        x ∈ ((aget msg.reactions emoji).getD [])) ∧
    ((aget (toggleReaction (toggleReaction msg sid emoji) sid
        emoji).reactions emoji).isSome =
      (aget msg.reactions emoji).isSome) ∧
    (∀ e2, ¬(e2 = emoji) →
      aget (toggleReaction (toggleReaction msg sid emoji) sid
        emoji).reactions e2 = aget msg.reactions e2) := by
  cases hg : aget msg.reactions emoji with
  | none =>
    have hT1 := toggle_reactions_none msg sid emoji hg
    have hg1 : aget (toggleReaction msg sid emoji).reactions emoji =
        some [sid] := by
      rw [hT1, aget_mapSet_self]
    have hT2 := toggle_reactions_mem_empty (toggleReaction msg sid emoji)
      sid emoji [sid] hg1 (by simp) (by simp)
    refine ⟨?_, ?_, ?_⟩
    · intro x
      rw [hT2, aget_mapDelete_self]
    · rw [hT2, aget_mapDelete_self]
    · intro e2 hne
      rw [hT2, aget_mapDelete_ne _ emoji e2 hne, hT1,
        aget_mapSet_ne _ emoji e2 _ hne]
  | some lst =>
    rcases aget_mem hg with ⟨q, hq, hq2⟩
    have hlst := hwf q hq
    rw [hq2] at hlst
    by_cases hm : sid ∈ lst
    · by_cases he : lst.erase sid = []
      · have hls : lst = [sid] := by
          cases lst with
          | nil => exact absurd rfl hlst.1
          | cons a t =>
            by_cases ha : a = sid
            · subst ha
              rw [List.erase_cons_head] at he
              rw [he]
            · rw [List.erase_cons_tail] at he
              · exact absurd he (by simp)
              · simp [ha]
        have hT1 := toggle_reactions_mem_empty msg sid emoji lst hg hm he
        have hg1 : aget (toggleReaction msg sid emoji).reactions emoji =
            none := by
          rw [hT1, aget_mapDelete_self]
        have hT2 := toggle_reactions_none (toggleReaction msg sid emoji)
          sid emoji hg1
        refine ⟨?_, ?_, ?_⟩
        · intro x
          rw [hT2, aget_mapSet_self, hls]
        · rw [hT2, aget_mapSet_self]
          rfl
        · intro e2 hne
          rw [hT2, aget_mapSet_ne _ emoji e2 _ hne, hT1,
            aget_mapDelete_ne _ emoji e2 hne]
      · have hT1 := toggle_reactions_mem_rest msg sid emoji lst hg hm he
        have hg1 : aget (toggleReaction msg sid emoji).reactions emoji =
            some (lst.erase sid) := by
          rw [hT1, aget_mapSet_self]
        have hnm : ¬(sid ∈ lst.erase sid) := fun hc =>
          ((List.Nodup.mem_erase_iff hlst.2).mp hc).1 rfl
        have hT2 := toggle_reactions_notmem (toggleReaction msg sid emoji)
          sid emoji (lst.erase sid) hg1 hnm
        refine ⟨?_, ?_, ?_⟩
        · intro x
          rw [hT2, aget_mapSet_self]
          simp only [Option.getD_some, List.mem_append, List.mem_singleton]
          constructor
          · rintro (hx | rfl)
            · exact List.mem_of_mem_erase hx
            · exact hm
          · intro hx
            by_cases hxs : x = sid
            · right; exact hxs
            · left; exact (List.mem_erase_of_ne hxs).mpr hx
        · rw [hT2, aget_mapSet_self]
          rfl
        · intro e2 hne
          rw [hT2, aget_mapSet_ne _ emoji e2 _ hne, hT1,
            aget_mapSet_ne _ emoji e2 _ hne]
    · have hT1 := toggle_reactions_notmem msg sid emoji lst hg hm
      have hg1 : aget (toggleReaction msg sid emoji).reactions emoji =
          some (lst ++ [sid]) := by
        rw [hT1, aget_mapSet_self]
      have hm2 : sid ∈ lst ++ [sid] := by simp
      have herase : (lst ++ [sid]).erase sid = lst := by
        rw [List.erase_append_right _ hm]
        simp
      have he2 : ¬((lst ++ [sid]).erase sid = []) := by
        rw [herase]
        exact hlst.1
      have hT2 := toggle_reactions_mem_rest (toggleReaction msg sid emoji)
        sid emoji (lst ++ [sid]) hg1 hm2 he2
      rw [herase] at hT2
      refine ⟨?_, ?_, ?_⟩
      · intro x
        rw [hT2, aget_mapSet_self]
      · rw [hT2, aget_mapSet_self]
      · intro e2 hne
        rw [hT2, aget_mapSet_ne _ emoji e2 _ hne, hT1,
          aget_mapSet_ne _ emoji e2 _ hne]

theorem toggle_wf (msg : Message) (sid emoji : String) (hwf : ReactWF msg) :
    ReactWF (toggleReaction msg sid emoji) := by
  cases hg : aget msg.reactions emoji with
  | none =>
    have hT1 := toggle_reactions_none msg sid emoji hg
    intro p hp
    rw [hT1] at hp
    rcases mem_mapSet hp with rfl | ⟨hpm, _⟩
    · exact ⟨by simp, by simp⟩
    · exact hwf p hpm
  | some lst =>
    rcases aget_mem hg with ⟨q, hq, hq2⟩
    have hlst := hwf q hq
    rw [hq2] at hlst
    by_cases hm : sid ∈ lst
    · by_cases he : lst.erase sid = []
      · have hT1 := toggle_reactions_mem_empty msg sid emoji lst hg hm he
        intro p hp
        rw [hT1] at hp
        exact hwf p (mem_mapDelete hp).1
      · have hT1 := toggle_reactions_mem_rest msg sid emoji lst hg hm he
        intro p hp
        rw [hT1] at hp
        rcases mem_mapSet hp with rfl | ⟨hpm, _⟩
        · exact ⟨he, List.Nodup.erase sid hlst.2⟩
        · exact hwf p hpm
    · have hT1 := toggle_reactions_notmem msg sid emoji lst hg hm
      intro p hp
      rw [hT1] at hp
      rcases mem_mapSet hp with rfl | ⟨hpm, _⟩
      · refine ⟨by simp, ?_⟩
        rw [List.nodup_append]
        refine ⟨hlst.2, List.nodup_singleton sid, ?_⟩
        intro a ha hb
        rw [List.mem_singleton] at hb
        rw [hb] at ha
        exact hm ha
      · exact hwf p hpm

/-- C9 counterexample: the reaction bucket of message `m9` is
`["y9", "x9"]`; after `y9` toggles the same emoji twice in succession the
bucket is `["x9", "y9"]` — the same sessions but a different list, so the
bucket is not returned to its state before the first call. -/
theorem reaction_double_toggle_order_cex :
    c9Bucket c9State = some ["y9", "x9"] ∧
    c9Bucket (applyOps c9State c9Toggle) = some ["x9", "y9"] ∧
    ¬(some ["x9", "y9"] = some ["y9", "x9"]) := by
  decide

/-- C9 (amended): applying the reaction toggle twice with the same session
and emoji returns the bucket to the same set of session ids — membership
and key presence are restored, every other emoji key is untouched — but
only up to order: a session already present in the bucket is re-appended
at the end.  Moreover a single toggle preserves the well-formedness
invariant that every emoji key maps to a non-empty duplicate-free list. -/
theorem reaction_double_toggle_set (msg : Message) (sid emoji : String)
    (hwf : ReactWF msg) :
    (∀ x, x ∈ ((aget (toggleReaction (toggleReaction msg sid emoji) sid
          emoji).reactions emoji).getD []) ↔
        x ∈ ((aget msg.reactions emoji).getD [])) ∧
    ((aget (toggleReaction (toggleReaction msg sid emoji) sid
        emoji).reactions emoji).isSome =
      (aget msg.reactions emoji).isSome) ∧
    (∀ e2, ¬(e2 = emoji) →
      aget (toggleReaction (toggleReaction msg sid emoji) sid
        emoji).reactions e2 = aget msg.reactions e2) ∧
    (∀ (msg2 : Message) (sid2 emoji2 : String), ReactWF msg2 →
      ReactWF (toggleReaction msg2 sid2 emoji2)) :=
  ⟨(toggle_toggle_bucket msg sid emoji hwf).1,
   (toggle_toggle_bucket msg sid emoji hwf).2.1,
   (toggle_toggle_bucket msg sid emoji hwf).2.2,
   fun msg2 sid2 emoji2 h => toggle_wf msg2 sid2 emoji2 h⟩

/-- C9 witness: the double toggle by `p9` on `w9Msg` (bucket
`["p9", "q9"]`) restores the bucket membership, key presence and the other
keys, and the toggle preserves well-formedness. -/
theorem reaction_double_toggle_set_witness :
    (∀ x, x ∈ ((aget (toggleReaction (toggleReaction w9Msg "p9" "thumb")
          "p9" "thumb").reactions "thumb").getD []) ↔
        x ∈ ((aget w9Msg.reactions "thumb").getD [])) ∧
    ((aget (toggleReaction (toggleReaction w9Msg "p9" "thumb") "p9"
        "thumb").reactions "thumb").isSome =
      (aget w9Msg.reactions "thumb").isSome) ∧
    (∀ e2, ¬(e2 = "thumb") →
      aget (toggleReaction (toggleReaction w9Msg "p9" "thumb") "p9"
        "thumb").reactions e2 = aget w9Msg.reactions e2) ∧
    (∀ (msg2 : Message) (sid2 emoji2 : String), ReactWF msg2 →
      ReactWF (toggleReaction msg2 sid2 emoji2)) :=
  reaction_double_toggle_set w9Msg "p9" "thumb" (by unfold ReactWF; decide)


end AESChat
